import Mathlib

/-!
Verification of the temporal financial simulation engine:
the compounding growth projector (`simulate_investment_growth`),
the cash-flow scheduler (`optimize_payment_schedule`),
the amortization simulator (`create_debt_payoff_plan`) and the
multi-decade life projector (`run_life_simulation`), shallowly embedded
over exact rationals.  Python's float arithmetic is modelled by `ℚ`,
Python's `round` (banker's rounding) by `pyRound`, and a raised
exception by `Option.none`.
-/

/-- Python's `round` to an integer: round half to even (banker's rounding). -/
def pyRound (q : ℚ) : ℤ :=
  if q - ⌊q⌋ < 1/2 then ⌊q⌋
  else if 1/2 < q - ⌊q⌋ then ⌊q⌋ + 1
  else if ⌊q⌋ % 2 = 0 then ⌊q⌋ else ⌊q⌋ + 1

/-- Python's `round(x, 0)`: banker's rounding, returned as a float. -/
def pyRound0 (q : ℚ) : ℚ := (pyRound q : ℚ)

/-- Python's `round(x, 1)`: banker's rounding to one decimal place. -/
def pyRound1 (q : ℚ) : ℚ := (pyRound (q * 10) : ℚ) / 10

theorem pyRound_le (q : ℚ) : pyRound q ≤ ⌊q⌋ + 1 := by
  unfold pyRound
  split
  · exact le_of_lt (lt_add_one _)
  · split
    · exact le_refl _
    · split
      · exact le_of_lt (lt_add_one _)
      · exact le_refl _

theorem le_pyRound (q : ℚ) : ⌊q⌋ ≤ pyRound q := by
  unfold pyRound
  split
  · exact le_refl _
  · split
    · exact le_of_lt (lt_add_one _)
    · split
      · exact le_refl _
      · exact le_of_lt (lt_add_one _)

theorem pyRound_mono {a b : ℚ} (h : a ≤ b) : pyRound a ≤ pyRound b := by
  rcases lt_or_eq_of_le (Int.floor_le_floor h) with hf | hf
  · calc pyRound a ≤ ⌊a⌋ + 1 := pyRound_le a
      _ ≤ ⌊b⌋ := by omega
      _ ≤ pyRound b := le_pyRound b
  · unfold pyRound
    rw [hf]
    have hab : a - (⌊b⌋ : ℚ) ≤ b - (⌊b⌋ : ℚ) := by linarith
    split_ifs <;> first | omega | linarith

namespace SimulationAgent

/-- Inner helper of `simulate_investment_growth` (simulation_agent.py):
future value of a monthly SIP plus a compounding initial lump sum. -/
def calculate_sip_value (monthly_amount : ℚ) (years : ℕ) (annual_return : ℚ)
    (initial : ℚ) : ℚ :=
  let monthly_rate := annual_return / 100 / 12
  let n := years * 12
  let sip_value :=
    if 0 < monthly_rate then
      monthly_amount * (((1 + monthly_rate) ^ n - 1) / monthly_rate) * (1 + monthly_rate)
    else
      monthly_amount * n
  let initial_growth := initial * (1 + annual_return / 100) ^ years
  sip_value + initial_growth

/-- One scenario entry of the `scenarios` dict, before gains are added. -/
structure Scenario where
  return_rate : ℚ
  final_value : ℚ
deriving DecidableEq

/-- The three scenario entries of the `scenarios` dict. -/
structure Scenarios where
  worst_case : Scenario
  base_case : Scenario
  best_case : Scenario
deriving DecidableEq

/-- The `scenarios` dict built by `simulate_investment_growth`:
worst case at `max(6, expected_return - 4)`, base case at `expected_return`,
best case at `expected_return + 4`; `final_value` is `round(..., 0)`. -/
def growthScenarios (monthly_sip : ℚ) (investment_years : ℕ)
    (expected_return initial_investment : ℚ) : Scenarios :=
  { worst_case :=
      { return_rate := max 6 (expected_return - 4)
        final_value := pyRound0 (calculate_sip_value monthly_sip investment_years
          (max 6 (expected_return - 4)) initial_investment) }
    base_case :=
      { return_rate := expected_return
        final_value := pyRound0 (calculate_sip_value monthly_sip investment_years
          expected_return initial_investment) }
    best_case :=
      { return_rate := expected_return + 4
        final_value := pyRound0 (calculate_sip_value monthly_sip investment_years
          (expected_return + 4) initial_investment) } }

/-- A scenario after the gains loop added `total_gain` and `gain_percent`. -/
structure ScenarioG where
  return_rate : ℚ
  final_value : ℚ
  total_gain : ℚ
  gain_percent : ℚ
deriving DecidableEq

/-- The gains loop body: `total_gain = final_value - total_invested`,
`gain_percent = round((final_value / total_invested - 1) * 100, 1)`.
The division is the site of the `ZeroDivisionError` when
`total_invested = 0`; callers guard that case with `Option.none`. -/
def addGains (total_invested : ℚ) (s : Scenario) : ScenarioG :=
  { return_rate := s.return_rate
    final_value := s.final_value
    total_gain := s.final_value - total_invested
    gain_percent := pyRound1 ((s.final_value / total_invested - 1) * 100) }

/-- One entry of the year-by-year base-case projection. -/
structure YearPoint where
  year : ℕ
  value : ℚ
  invested : ℚ
  gain : ℚ
deriving DecidableEq

/-- The three scenarios after the gains loop ran. -/
structure ScenariosG where
  worst_case : ScenarioG
  base_case : ScenarioG
  best_case : ScenarioG
deriving DecidableEq

/-- Structured result of `simulate_investment_growth` (the prose `insights`
strings are omitted; every numeric field is kept). -/
structure GrowthResult where
  monthly_sip : ℚ
  initial_investment : ℚ
  duration_years : ℕ
  total_invested : ℚ
  scenarios : ScenariosG
  yearly_projection : List YearPoint
deriving DecidableEq

/-- Embedding of `simulate_investment_growth` (simulation_agent.py); `none` models the
`ZeroDivisionError` raised by the gains loop when `total_invested == 0`. -/
def simulate_investment_growth (monthly_sip : ℚ) (investment_years : ℕ)
    (expected_return initial_investment : ℚ) : Option GrowthResult :=
  let months : ℕ := investment_years * 12
  let total_invested := initial_investment + monthly_sip * (months : ℚ)
  let s := growthScenarios monthly_sip investment_years expected_return initial_investment
  if total_invested = 0 then none
  else
    let proj := (List.range' 1 investment_years).map fun year =>
      let value := calculate_sip_value monthly_sip year expected_return initial_investment
      let invested := initial_investment + monthly_sip * ((year * 12 : ℕ) : ℚ)
      { year := year
        value := pyRound0 value
        invested := pyRound0 invested
        gain := pyRound0 (value - invested) : YearPoint }
    some
      { monthly_sip := monthly_sip
        initial_investment := initial_investment
        duration_years := investment_years
        total_invested := total_invested
        scenarios :=
          { worst_case := addGains total_invested s.worst_case
            base_case := addGains total_invested s.base_case
            best_case := addGains total_invested s.best_case }
        yearly_projection := proj.drop (proj.length - 5) }

/-- For a positive monthly rate `x`, the annuity-due expression of the source
equals `monthly * (1+x) * Σ_{k<n} (1+x)^k`. -/
theorem sip_closed_form (m x : ℚ) (n : ℕ) (hx : 0 < x) :
    m * (((1 + x) ^ n - 1) / x) * (1 + x) =
      m * ((∑ k ∈ Finset.range n, (1 + x) ^ k) * (1 + x)) := by
  have hne : (1 + x) ≠ 1 := by intro h; nlinarith
  rw [geom_sum_eq hne n]
  have : (1 + x) - 1 = x := by ring
  rw [this]
  ring

/-- Monotonicity: `calculate_sip_value` grows with the annual return rate, for
nonnegative contribution and lump sum and positive rates. -/
theorem calculate_sip_value_mono (m : ℚ) (y : ℕ) (i : ℚ) (hm : 0 ≤ m)
    (hi : 0 ≤ i) {r1 r2 : ℚ} (h1 : 0 < r1) (h12 : r1 ≤ r2) :
    calculate_sip_value m y r1 i ≤ calculate_sip_value m y r2 i := by
  have h2 : 0 < r2 := lt_of_lt_of_le h1 h12
  have hx1 : 0 < r1 / 100 / 12 := by positivity
  have hx2 : 0 < r2 / 100 / 12 := by positivity
  unfold calculate_sip_value
  simp only [if_pos hx1, if_pos hx2]
  have hxle : r1 / 100 / 12 ≤ r2 / 100 / 12 := by linarith
  rw [sip_closed_form m _ (y * 12) hx1, sip_closed_form m _ (y * 12) hx2]
  have hb1 : (0:ℚ) ≤ 1 + r1 / 100 / 12 := by linarith
  have hb2 : (0:ℚ) ≤ 1 + r2 / 100 / 12 := by linarith
  have hsum : (∑ k ∈ Finset.range (y * 12), (1 + r1 / 100 / 12) ^ k) ≤
      ∑ k ∈ Finset.range (y * 12), (1 + r2 / 100 / 12) ^ k := by
    apply Finset.sum_le_sum
    intro k _
    exact pow_le_pow_left₀ hb1 (by linarith) k
  have hsum0 : (0:ℚ) ≤ ∑ k ∈ Finset.range (y * 12), (1 + r1 / 100 / 12) ^ k := by
    apply Finset.sum_nonneg
    intro k _
    positivity
  have hsip : m * ((∑ k ∈ Finset.range (y * 12), (1 + r1 / 100 / 12) ^ k) * (1 + r1 / 100 / 12)) ≤
      m * ((∑ k ∈ Finset.range (y * 12), (1 + r2 / 100 / 12) ^ k) * (1 + r2 / 100 / 12)) := by
    apply mul_le_mul_of_nonneg_left _ hm
    apply mul_le_mul hsum (by linarith) (by linarith) (le_trans hsum0 hsum)
  have hinit : i * (1 + r1 / 100) ^ y ≤ i * (1 + r2 / 100) ^ y := by
    apply mul_le_mul_of_nonneg_left _ hi
    exact pow_le_pow_left₀ (by linarith) (by linarith) y
  exact add_le_add hsip hinit

theorem pyRound0_mono {a b : ℚ} (h : a ≤ b) : pyRound0 a ≤ pyRound0 b :=
  Int.cast_le.mpr (pyRound_mono h)

end SimulationAgent

/-- C1 (counterexample): at expected return 0 (a valid input: contribution
100 ≥ 0, 1 year > 0, lump sum 0 ≥ 0), the worst-case scenario rate is
floored to 6% while the base case keeps rate 0, so the worst-case final
value (1240) exceeds the base-case final value (1200): the claimed
ordering `worst_case.final_value ≤ base_case.final_value` fails. -/
theorem growth_scenario_ordering_fails_at_rate_zero :
    ¬ ((SimulationAgent.growthScenarios 100 1 0 0).worst_case.final_value ≤
        (SimulationAgent.growthScenarios 100 1 0 0).base_case.final_value) := by
  norm_num [SimulationAgent.growthScenarios, SimulationAgent.calculate_sip_value,
    pyRound0, pyRound]

/-- C1 (amended): for every contribution-plan input with monthly
contribution ≥ 0, years > 0, lump sum ≥ 0 and expected annual rate ≥ 6
(so that the 6% floor on the worst-case rate cannot raise it above the
base rate), the three scenarios satisfy
`worst_case.final_value ≤ base_case.final_value ≤ best_case.final_value`. -/
theorem growth_scenario_ordering_of_rate_ge_six (m : ℚ) (y : ℕ) (r i : ℚ)
    (hm : 0 ≤ m) (hy : 0 < y) (hi : 0 ≤ i) (hr : 6 ≤ r) :
    (SimulationAgent.growthScenarios m y r i).worst_case.final_value ≤
        (SimulationAgent.growthScenarios m y r i).base_case.final_value ∧
      (SimulationAgent.growthScenarios m y r i).base_case.final_value ≤
        (SimulationAgent.growthScenarios m y r i).best_case.final_value := by
  constructor
  · apply SimulationAgent.pyRound0_mono
    apply SimulationAgent.calculate_sip_value_mono m y i hm hi
    · have : (0:ℚ) < 6 := by norm_num
      exact lt_of_lt_of_le this (le_max_left _ _)
    · exact max_le hr (by linarith)
  · apply SimulationAgent.pyRound0_mono
    apply SimulationAgent.calculate_sip_value_mono m y i hm hi
    · linarith
    · linarith

/-- C1 (witness): the amended ordering instantiated at the concrete plan
(contribution 100, 10 years, expected rate 12, lump sum 0). -/
theorem growth_scenario_ordering_of_rate_ge_six_witness :
    (0:ℚ) ≤ 100 ∧ (0:ℕ) < 10 ∧ (0:ℚ) ≤ 0 ∧ (6:ℚ) ≤ 12 ∧
      ((SimulationAgent.growthScenarios 100 10 12 0).worst_case.final_value ≤
          (SimulationAgent.growthScenarios 100 10 12 0).base_case.final_value ∧
        (SimulationAgent.growthScenarios 100 10 12 0).base_case.final_value ≤
          (SimulationAgent.growthScenarios 100 10 12 0).best_case.final_value) :=
  ⟨by norm_num, by norm_num, le_refl 0, by norm_num,
    growth_scenario_ordering_of_rate_ge_six 100 10 12 0 (by norm_num) (by norm_num)
      (le_refl 0) (by norm_num)⟩

/-- C3 (counterexample): at expected return 0 the base scenario uses rate
0, not the floored `max 6 (0 - 4) = 6`, and its final value 1200 is the
unfloored one (the rate-6 value is 1240): the claim that each of the three
scenario rates is floored at 6% before the future value is computed fails. -/
theorem growth_floor_claim_fails_on_base_case :
    (SimulationAgent.growthScenarios 100 1 0 0).base_case.return_rate < 6 ∧
      (SimulationAgent.growthScenarios 100 1 0 0).base_case.final_value ≠
        pyRound0 (SimulationAgent.calculate_sip_value 100 1 (max 6 (0 - 4)) 0) := by
  constructor
  · norm_num [SimulationAgent.growthScenarios]
  · norm_num [SimulationAgent.growthScenarios, SimulationAgent.calculate_sip_value,
      pyRound0, pyRound]

/-- C3 (amended): only the worst-case rate is floored at a minimum of 6%
before the future value is computed (`max 6 (rate - 4)`); the base case
uses the expected rate as given and the best case uses `rate + 4`,
neither floored. -/
theorem growth_floor_applies_to_worst_case_only (m : ℚ) (y : ℕ) (r i : ℚ) :
    (SimulationAgent.growthScenarios m y r i).worst_case.return_rate = max 6 (r - 4) ∧
      6 ≤ (SimulationAgent.growthScenarios m y r i).worst_case.return_rate ∧
      (SimulationAgent.growthScenarios m y r i).worst_case.final_value =
        pyRound0 (SimulationAgent.calculate_sip_value m y (max 6 (r - 4)) i) ∧
      (SimulationAgent.growthScenarios m y r i).base_case.return_rate = r ∧
      (SimulationAgent.growthScenarios m y r i).base_case.final_value =
        pyRound0 (SimulationAgent.calculate_sip_value m y r i) ∧
      (SimulationAgent.growthScenarios m y r i).best_case.return_rate = r + 4 ∧
      (SimulationAgent.growthScenarios m y r i).best_case.final_value =
        pyRound0 (SimulationAgent.calculate_sip_value m y (r + 4) i) :=
  ⟨rfl, le_max_left _ _, rfl, rfl, rfl, rfl, rfl⟩

/-- C10: with monthly contribution 0 and initial lump sum 0 the total
invested is 0, and the gains loop's division `final_value / total_invested`
raises `ZeroDivisionError` (modelled as `none`) instead of returning a
structured result. -/
theorem growth_div_by_zero_on_zero_contribution_zero_lump (y : ℕ) (r : ℚ) :
    SimulationAgent.simulate_investment_growth 0 y r 0 = none := by
  simp [SimulationAgent.simulate_investment_growth]

namespace PlanningAgent

/-- One debt of `create_debt_payoff_plan` (planning_agent.py). -/
structure Debt where
  name : String
  balance : ℚ
  interest_rate : ℚ
  min_payment : ℚ
deriving DecidableEq

/-- One entry of `payoff_order`. -/
structure Payoff where
  name : String
  payoff_month : ℕ
  original_balance : ℚ
deriving DecidableEq

/-- Strategy: `"avalanche"` (highest interest first) or `"snowball"`
(smallest balance first). -/
inductive Strategy where
  | avalanche
  | snowball
deriving DecidableEq

/-- Avalanche order: `sorted(..., key=interest_rate, reverse=True)`,
a stable descending sort. -/
def byRateDesc : Debt → Debt → Prop := fun a b => b.interest_rate ≤ a.interest_rate

/-- Snowball order: `sorted(..., key=balance)`, a stable ascending sort. -/
def byBalanceAsc : Debt → Debt → Prop := fun a b => a.balance ≤ b.balance

instance : DecidableRel byRateDesc := fun a b =>
  inferInstanceAs (Decidable (b.interest_rate ≤ a.interest_rate))

instance : DecidableRel byBalanceAsc := fun a b =>
  inferInstanceAs (Decidable (a.balance ≤ b.balance))

/-- The strategy sort of `create_debt_payoff_plan` (stable, as Python's). -/
def sortDebts (strategy : Strategy) (debt_list : List Debt) : List Debt :=
  match strategy with
  | .avalanche => List.insertionSort byRateDesc debt_list
  | .snowball => List.insertionSort byBalanceAsc debt_list

/-- One period of the payoff loop: every active debt pays its minimum and
accrues one month of interest on the remaining balance, then the whole
extra budget is applied to the first debt in the current order. -/
def advancePeriod (extra : ℚ) (debts : List Debt) : List Debt :=
  let ds := debts.map fun d =>
    let b1 := d.balance - d.min_payment
    { d with balance := b1 + b1 * (d.interest_rate / 100 / 12) }
  match ds with
  | [] => []
  | d0 :: rest => { d0 with balance := d0.balance - extra } :: rest

/-- The payoff record for a debt that reached balance ≤ 0 in `month`;
`original_balance` is looked up by name in the original input list. -/
def payoffRecord (debt_list : List Debt) (month : ℕ) (d : Debt) : Payoff :=
  { name := d.name
    payoff_month := month
    original_balance := ((debt_list.find? fun o => o.name = d.name).map Debt.balance).getD 0 }

/-- The `while remaining_debts and month < 120` loop of
`create_debt_payoff_plan`: advance one period, move the paid-off debts
(balance ≤ 0) into the payoff order, and continue. -/
def loopGo (debt_list : List Debt) (extra : ℚ) (month : ℕ) (remaining : List Debt)
    (order : List Payoff) : ℕ × List Debt × List Payoff :=
  if h : remaining ≠ [] ∧ month < 120 then
    let stepped := advancePeriod extra remaining
    loopGo debt_list extra (month + 1)
      (stepped.filter fun d => ¬ d.balance ≤ 0)
      (order ++ (stepped.filter fun d => d.balance ≤ 0).map (payoffRecord debt_list (month + 1)))
  else
    (month, remaining, order)
termination_by 120 - month
decreasing_by omega

/-- One unconditional period of the same loop acting on
(remaining debts, payoff order); stepping an empty debt list is a no-op,
so iterating this from the initial state reproduces the loop's states. -/
def simStep (debt_list : List Debt) (extra : ℚ) (month : ℕ)
    (s : List Debt × List Payoff) : List Debt × List Payoff :=
  let stepped := advancePeriod extra s.1
  (stepped.filter fun d => ¬ d.balance ≤ 0,
    s.2 ++ (stepped.filter fun d => d.balance ≤ 0).map (payoffRecord debt_list month))

/-- The loop state after `k` periods, starting from the sorted debts. -/
def simState (debt_list : List Debt) (extra : ℚ) (init : List Debt) :
    ℕ → List Debt × List Payoff
  | 0 => (init, [])
  | k + 1 => simStep debt_list extra (k + 1) (simState debt_list extra init k)

/-- Field `total_months_to_debt_free`: a plain month count when all debts were
resolved, or the `">120"`-style string marker when the cap was reached. -/
inductive MonthsOut where
  | months (n : ℕ)
  | unresolvedAfter (n : ℕ)
deriving DecidableEq

/-- The successful result dict of `create_debt_payoff_plan`
(the prose `recommendation` string is omitted). -/
structure PlanOk where
  strategy : Strategy
  total_debt : ℚ
  monthly_budget : ℚ
  extra_payment_available : ℚ
  payoff_order : List Payoff
  total_months_to_debt_free : MonthsOut
  payment_priority : List String
deriving DecidableEq

/-- The fail-fast infeasibility dict: budget below the minimum payments. -/
structure Infeasible where
  minimum_required : ℚ
  provided : ℚ
deriving DecidableEq

inductive PlanResult where
  | infeasible (i : Infeasible)
  | ok (r : PlanOk)
deriving DecidableEq

/-- Embedding of `create_debt_payoff_plan` (planning_agent.py). -/
def create_debt_payoff_plan (debts : List Debt) (monthly_debt_budget : ℚ)
    (strategy : Strategy) : PlanResult :=
  let sorted_debts := sortDebts strategy debts
  let total_debt := (debts.map Debt.balance).sum
  let total_min_payments := (debts.map Debt.min_payment).sum
  let extra_payment := monthly_debt_budget - total_min_payments
  if extra_payment < 0 then
    .infeasible { minimum_required := total_min_payments, provided := monthly_debt_budget }
  else
    let res := loopGo debts extra_payment 0 sorted_debts []
    .ok
      { strategy := strategy
        total_debt := total_debt
        monthly_budget := monthly_debt_budget
        extra_payment_available := extra_payment
        payoff_order := res.2.2
        total_months_to_debt_free :=
          if res.2.1 = [] then .months res.1 else .unresolvedAfter res.1
        payment_priority := sorted_debts.map Debt.name }

/-- The month count reported by a plan (0 for the infeasible result). -/
def planMonths : PlanResult → ℕ
  | .infeasible _ => 0
  | .ok r =>
    match r.total_months_to_debt_free with
    | .months n => n
    | .unresolvedAfter n => n

theorem loopGo_nil (debt_list : List Debt) (extra : ℚ) (month : ℕ) (order : List Payoff) :
    loopGo debt_list extra month [] order = (month, [], order) := by
  rw [loopGo]
  simp

theorem loopGo_month_le (debt_list : List Debt) (extra : ℚ) :
    ∀ month remaining order, month ≤ (loopGo debt_list extra month remaining order).1 := by
  intro month
  induction' hf : (120 - month) using Nat.strong_induction_on with f IH generalizing month
  intro remaining order
  rw [loopGo]
  split_ifs with h
  · dsimp only
    have h2 := h.2
    have := IH (120 - (month + 1)) (by omega) (month + 1) rfl
      ((advancePeriod extra remaining).filter fun d => ¬ d.balance ≤ 0)
      (order ++ ((advancePeriod extra remaining).filter fun d => d.balance ≤ 0).map
        (payoffRecord debt_list (month + 1)))
    omega
  · exact le_refl month

theorem simState_succ (debt_list : List Debt) (extra : ℚ) (init : List Debt) (k : ℕ) :
    simState debt_list extra init (k + 1) =
      ((advancePeriod extra (simState debt_list extra init k).1).filter
          fun d => ¬ d.balance ≤ 0,
        (simState debt_list extra init k).2 ++
          ((advancePeriod extra (simState debt_list extra init k).1).filter
              fun d => d.balance ≤ 0).map (payoffRecord debt_list (k + 1))) := rfl

theorem loopGo_simState (debt_list : List Debt) (extra : ℚ) (init : List Debt) :
    ∀ k : ℕ, k ≤ 120 → ∀ M rem ord,
      loopGo debt_list extra k (simState debt_list extra init k).1
          (simState debt_list extra init k).2 = (M, rem, ord) →
        k ≤ M ∧ M ≤ 120 ∧ (rem, ord) = simState debt_list extra init M ∧
          (∀ j, k ≤ j → j < M → (simState debt_list extra init j).1 ≠ []) ∧
          ((simState debt_list extra init M).1 = [] ∨ M = 120) := by
  intro k
  induction' hf : (120 - k) using Nat.strong_induction_on with f IH generalizing k
  intro hk120 M rem ord hres
  rw [loopGo] at hres
  by_cases h : (simState debt_list extra init k).1 ≠ [] ∧ k < 120
  · rw [dif_pos h] at hres
    dsimp only at hres
    rw [show ((advancePeriod extra (simState debt_list extra init k).1).filter
          fun d => ¬ d.balance ≤ 0) = (simState debt_list extra init (k + 1)).1 from
        by rw [simState_succ],
      show ((simState debt_list extra init k).2 ++
          ((advancePeriod extra (simState debt_list extra init k).1).filter
              fun d => d.balance ≤ 0).map (payoffRecord debt_list (k + 1))) =
          (simState debt_list extra init (k + 1)).2 from by rw [simState_succ]] at hres
    obtain ⟨hM, hM120, hstate, hrun, hfin⟩ :=
      IH (120 - (k + 1)) (by omega) (k + 1) rfl (by omega) M rem ord hres
    refine ⟨by omega, hM120, hstate, ?_, hfin⟩
    intro j hkj hjM
    rcases Nat.eq_or_lt_of_le hkj with hj | hj
    · rw [← hj]; exact h.1
    · exact hrun j hj hjM
  · rw [dif_neg h] at hres
    have hM : M = k ∧ rem = (simState debt_list extra init k).1 ∧
        ord = (simState debt_list extra init k).2 := by
      rw [Prod.mk.injEq, Prod.mk.injEq] at hres
      exact ⟨hres.1.symm, hres.2.1.symm, hres.2.2.symm⟩
    obtain ⟨rfl, rfl, rfl⟩ := hM
    push_neg at h
    refine ⟨le_refl _, hk120, rfl, fun j h1 h2 => absurd (lt_of_le_of_lt h1 h2) (lt_irrefl _), ?_⟩
    by_cases hne : (simState debt_list extra init M).1 = []
    · exact Or.inl hne
    · exact Or.inr (le_antisymm hk120 (h hne))

theorem loopGo_single_step (dl : List Debt) (e : ℚ) (month : ℕ) (hm : month < 120)
    (nm : String) (b r mp : ℚ) (ord : List Payoff) :
    loopGo dl e month [⟨nm, b, r, mp⟩] ord =
      if (b - mp) + (b - mp) * (r / 100 / 12) - e ≤ 0 then
        (month + 1, [],
          ord ++ [payoffRecord dl (month + 1)
            ⟨nm, (b - mp) + (b - mp) * (r / 100 / 12) - e, r, mp⟩])
      else
        loopGo dl e (month + 1)
          [⟨nm, (b - mp) + (b - mp) * (r / 100 / 12) - e, r, mp⟩] ord := by
  rw [loopGo, dif_pos ⟨by simp, hm⟩]
  dsimp only
  have hadv : advancePeriod e [(⟨nm, b, r, mp⟩ : Debt)] =
      [⟨nm, (b - mp) + (b - mp) * (r / 100 / 12) - e, r, mp⟩] := rfl
  rw [hadv]
  by_cases hc : (b - mp) + (b - mp) * (r / 100 / 12) - e ≤ 0
  · rw [if_pos hc]
    simp only [List.filter_cons, List.filter_nil, decide_eq_true_eq, hc, not_true,
      if_false, if_true, List.map_cons, List.map_nil]
    rw [loopGo_nil]
  · rw [if_neg hc]
    simp only [List.filter_cons, List.filter_nil, decide_eq_true_eq, hc, not_false_iff,
      if_false, if_true, List.map_nil, List.append_nil]

theorem loopGo_single_mono (dl1 dl2 : List Debt) (nm : String) (r mp : ℚ) (hr : 0 ≤ r)
    {e1 e2 : ℚ} (he : e1 ≤ e2) :
    ∀ month ord1 ord2 b1 b2, b2 ≤ b1 →
      (loopGo dl2 e2 month [⟨nm, b2, r, mp⟩] ord2).1 ≤
        (loopGo dl1 e1 month [⟨nm, b1, r, mp⟩] ord1).1 := by
  intro month
  induction' hf : (120 - month) using Nat.strong_induction_on with f IH generalizing month
  intro ord1 ord2 b1 b2 hb
  by_cases hm : month < 120
  · rw [loopGo_single_step dl1 e1 month hm, loopGo_single_step dl2 e2 month hm]
    have hx : (0:ℚ) ≤ r / 100 / 12 := by positivity
    have hkey : (b2 - mp) + (b2 - mp) * (r / 100 / 12) - e2 ≤
        (b1 - mp) + (b1 - mp) * (r / 100 / 12) - e1 := by
      have := mul_le_mul_of_nonneg_right (sub_le_sub_right hb mp) hx
      linarith
    by_cases hc2 : (b2 - mp) + (b2 - mp) * (r / 100 / 12) - e2 ≤ 0
    · rw [if_pos hc2]
      by_cases hc1 : (b1 - mp) + (b1 - mp) * (r / 100 / 12) - e1 ≤ 0
      · rw [if_pos hc1]
      · rw [if_neg hc1]
        exact loopGo_month_le dl1 e1 (month + 1) _ _
    · have hc1 : ¬ (b1 - mp) + (b1 - mp) * (r / 100 / 12) - e1 ≤ 0 := by
        intro hle
        exact hc2 (le_trans hkey hle)
      rw [if_neg hc1, if_neg hc2]
      exact IH (120 - (month + 1)) (by omega) (month + 1) rfl ord1 ord2 _ _ hkey
  · conv_lhs => rw [loopGo]
    conv_rhs => rw [loopGo]
    rw [dif_neg (show ¬(([(⟨nm, b2, r, mp⟩ : Debt)] : List Debt) ≠ [] ∧ month < 120) from
        fun hh => hm hh.2)]
    rw [dif_neg (show ¬(([(⟨nm, b1, r, mp⟩ : Debt)] : List Debt) ≠ [] ∧ month < 120) from
        fun hh => hm hh.2)]

theorem planMonths_ok (s : Strategy) (td mb ep : ℚ) (po : List Payoff) (pp : List String)
    (c : Prop) [Decidable c] (n : ℕ) :
    planMonths (.ok
      { strategy := s, total_debt := td, monthly_budget := mb, extra_payment_available := ep,
        payoff_order := po,
        total_months_to_debt_free := if c then .months n else .unresolvedAfter n,
        payment_priority := pp }) = n := by
  by_cases h : c <;> simp [planMonths, h]

/-- C6: whenever the monthly budget is strictly below the sum of the
debts' minimum payments, `create_debt_payoff_plan` fails fast with the
structured infeasibility result reporting the required minimum and the
provided budget, without entering the simulation loop (the loop does not
occur in this branch) and without raising (the embedding is total). -/
theorem debt_plan_infeasible_budget (debts : List Debt) (budget : ℚ) (strategy : Strategy)
    (h : budget < (debts.map Debt.min_payment).sum) :
    create_debt_payoff_plan debts budget strategy =
      .infeasible
        { minimum_required := (debts.map Debt.min_payment).sum, provided := budget } := by
  unfold create_debt_payoff_plan
  rw [if_pos (by linarith)]

/-- C6 (witness): a single debt with minimum payment 60 and budget 50. -/
theorem debt_plan_infeasible_budget_witness :
    (50:ℚ) < (([⟨"A", 100, 0, 60⟩] : List Debt).map Debt.min_payment).sum ∧
      create_debt_payoff_plan [⟨"A", 100, 0, 60⟩] 50 .avalanche =
        .infeasible
          { minimum_required := (([⟨"A", 100, 0, 60⟩] : List Debt).map Debt.min_payment).sum,
            provided := 50 } :=
  ⟨by norm_num, debt_plan_infeasible_budget [⟨"A", 100, 0, 60⟩] 50 .avalanche (by norm_num)⟩

/-- C7: for a feasible budget the loop stops at a month `M ≤ 120`; every
month before `M` still had active debts (the loop stops as soon as none
remain); at `M` either no debts remain or the 120-month cap was hit; the
result embeds the loop's payoff order and priority list, and when debts
remain at the cap the reported month count is the explicit
`unresolvedAfter 120` marker (the `">120"` string) rather than a plain
count. -/
theorem debt_plan_cap_and_unresolved_flag (debts : List Debt) (budget : ℚ)
    (strategy : Strategy) (hfeas : (debts.map Debt.min_payment).sum ≤ budget) :
    ∃ M rem ord,
      loopGo debts (budget - (debts.map Debt.min_payment).sum) 0
          (sortDebts strategy debts) [] = (M, rem, ord) ∧
        M ≤ 120 ∧
        (rem, ord) = simState debts (budget - (debts.map Debt.min_payment).sum)
          (sortDebts strategy debts) M ∧
        (∀ j < M, (simState debts (budget - (debts.map Debt.min_payment).sum)
          (sortDebts strategy debts) j).1 ≠ []) ∧
        (rem = [] ∨ M = 120) ∧
        create_debt_payoff_plan debts budget strategy = .ok
          { strategy := strategy
            total_debt := (debts.map Debt.balance).sum
            monthly_budget := budget
            extra_payment_available := budget - (debts.map Debt.min_payment).sum
            payoff_order := ord
            total_months_to_debt_free :=
              if rem = [] then .months M else .unresolvedAfter M
            payment_priority := (sortDebts strategy debts).map Debt.name } ∧
        (rem ≠ [] →
          (if rem = [] then MonthsOut.months M else .unresolvedAfter M) =
            .unresolvedAfter 120) := by
  obtain ⟨M, rem, ord, hres⟩ :
      ∃ M rem ord, loopGo debts (budget - (debts.map Debt.min_payment).sum) 0
        (sortDebts strategy debts) [] = (M, rem, ord) := ⟨_, _, _, rfl⟩
  obtain ⟨-, hM120, hstate, hrun, hfin⟩ :=
    loopGo_simState debts (budget - (debts.map Debt.min_payment).sum)
      (sortDebts strategy debts) 0 (by omega) M rem ord hres
  have hrem : rem = (simState debts (budget - (debts.map Debt.min_payment).sum)
      (sortDebts strategy debts) M).1 := congrArg Prod.fst hstate
  refine ⟨M, rem, ord, hres, hM120, hstate, fun j hj => hrun j (Nat.zero_le j) hj, ?_, ?_, ?_⟩
  · rcases hfin with hfin | hfin
    · exact Or.inl (hrem.trans hfin)
    · exact Or.inr hfin
  · unfold create_debt_payoff_plan
    rw [if_neg (by simp only [not_lt]; linarith)]
    rw [hres]
  · intro hne
    rw [if_neg hne]
    rcases hfin with hfin | hfin
    · exact absurd (hrem.trans hfin) hne
    · rw [hfin]

/-- C7 (witness): one debt of 100 with minimum payment 60 and budget 60. -/
theorem debt_plan_cap_and_unresolved_flag_witness :
    (([⟨"A", 100, 0, 60⟩] : List Debt).map Debt.min_payment).sum ≤ 60 ∧
      ∃ M rem ord,
        loopGo [⟨"A", 100, 0, 60⟩] (60 - (([⟨"A", 100, 0, 60⟩] : List Debt).map
            Debt.min_payment).sum) 0 (sortDebts .avalanche [⟨"A", 100, 0, 60⟩]) [] =
          (M, rem, ord) ∧
        M ≤ 120 ∧
        (rem, ord) = simState [⟨"A", 100, 0, 60⟩]
          (60 - (([⟨"A", 100, 0, 60⟩] : List Debt).map Debt.min_payment).sum)
          (sortDebts .avalanche [⟨"A", 100, 0, 60⟩]) M ∧
        (∀ j < M, (simState [⟨"A", 100, 0, 60⟩]
          (60 - (([⟨"A", 100, 0, 60⟩] : List Debt).map Debt.min_payment).sum)
          (sortDebts .avalanche [⟨"A", 100, 0, 60⟩]) j).1 ≠ []) ∧
        (rem = [] ∨ M = 120) ∧
        create_debt_payoff_plan [⟨"A", 100, 0, 60⟩] 60 .avalanche = .ok
          { strategy := .avalanche
            total_debt := (([⟨"A", 100, 0, 60⟩] : List Debt).map Debt.balance).sum
            monthly_budget := 60
            extra_payment_available :=
              60 - (([⟨"A", 100, 0, 60⟩] : List Debt).map Debt.min_payment).sum
            payoff_order := ord
            total_months_to_debt_free :=
              if rem = [] then .months M else .unresolvedAfter M
            payment_priority := (sortDebts .avalanche [⟨"A", 100, 0, 60⟩]).map Debt.name } ∧
        (rem ≠ [] →
          (if rem = [] then MonthsOut.months M else .unresolvedAfter M) =
            .unresolvedAfter 120) :=
  ⟨by norm_num,
    debt_plan_cap_and_unresolved_flag [⟨"A", 100, 0, 60⟩] 60 .avalanche (by norm_num)⟩

/-- C8: for a single debt with fixed principal, rate and minimum payment
(rate ≥ 0), the reported number of periods to payoff is monotonically
non-increasing in the extra payment `e` (the budget is `min_payment + e`,
so `e` is exactly the budget minus the minimum-payment sum). -/
theorem debt_payoff_months_antitone_in_extra (nm : String) (P r mp : ℚ)
    (strategy : Strategy) (hr : 0 ≤ r) {e1 e2 : ℚ} (h1 : 0 ≤ e1) (he : e1 ≤ e2) :
    planMonths (create_debt_payoff_plan [⟨nm, P, r, mp⟩] (mp + e2) strategy) ≤
      planMonths (create_debt_payoff_plan [⟨nm, P, r, mp⟩] (mp + e1) strategy) := by
  have h2 : 0 ≤ e2 := le_trans h1 he
  have hsort : sortDebts strategy [(⟨nm, P, r, mp⟩ : Debt)] = [⟨nm, P, r, mp⟩] := by
    cases strategy <;> rfl
  unfold create_debt_payoff_plan
  simp only [List.map_cons, List.map_nil, List.sum_cons, List.sum_nil, add_zero, hsort]
  have hee1 : mp + e1 - mp = e1 := by ring
  have hee2 : mp + e2 - mp = e2 := by ring
  rw [hee1, hee2, if_neg (not_lt.mpr h1), if_neg (not_lt.mpr h2)]
  rw [planMonths_ok, planMonths_ok]
  exact loopGo_single_mono [⟨nm, P, r, mp⟩] [⟨nm, P, r, mp⟩] nm r mp hr he 0 [] [] P P
    (le_refl P)

/-- C8 (witness): principal 100, rate 0, minimum payment 50, extras 0 and
50. -/
theorem debt_payoff_months_antitone_in_extra_witness :
    (0:ℚ) ≤ 0 ∧ (0:ℚ) ≤ 0 ∧ (0:ℚ) ≤ 50 ∧
      planMonths (create_debt_payoff_plan [⟨"A", 100, 0, 50⟩] (50 + 50) .avalanche) ≤
        planMonths (create_debt_payoff_plan [⟨"A", 100, 0, 50⟩] (50 + 0) .avalanche) :=
  ⟨le_refl 0, le_refl 0, by norm_num,
    debt_payoff_months_antitone_in_extra "A" 100 0 50 .avalanche (le_refl 0) (le_refl 0)
      (by norm_num)⟩

end PlanningAgent

namespace CashflowAgent

/-!
Embedding of `optimize_payment_schedule` (cashflow_agent.py).  Dates are
modelled as the ordinals of §6 of the design: `ℕ`, with `0` standing for a
missing/empty (hence Python-falsy) date string and every real calendar
date a positive ordinal; the `"9999-12-31"` sort sentinel for a missing
date is modelled as `⊤` in `WithTop ℕ`.
-/

/-- A bill: `{name, amount, due_date}`. -/
structure Bill where
  name : String
  amount : ℚ
  due_date : ℕ
deriving DecidableEq

/-- An expected inflow: `{source, amount, date}`. -/
structure Inflow where
  source : String
  amount : ℚ
  date : ℕ
deriving DecidableEq

/-- Sort key `x.get("due_date", "9999-12-31")`: missing dates sort last. -/
def dateKey (d : ℕ) : WithTop ℕ := if d = 0 then ⊤ else (d : WithTop ℕ)

def billsByDate : Bill → Bill → Prop := fun a b => dateKey a.due_date ≤ dateKey b.due_date

def inflowsByDate : Inflow → Inflow → Prop := fun a b => dateKey a.date ≤ dateKey b.date

instance : DecidableRel billsByDate := fun a b =>
  inferInstanceAs (Decidable (dateKey a.due_date ≤ dateKey b.due_date))

instance : DecidableRel inflowsByDate := fun a b =>
  inferInstanceAs (Decidable (dateKey a.date ≤ dateKey b.date))

/-- Sorting `bills = sorted(bills, key=...)` (Python's sort is stable). -/
def sortBills (bills : List Bill) : List Bill := List.insertionSort billsByDate bills

/-- Sorting `income = sorted(income, key=...)` (stable). -/
def sortInflows (income : List Inflow) : List Inflow :=
  List.insertionSort inflowsByDate income

/-- Building `income_dates = {i.date: i.amount for i in income}`: an
insertion-ordered map in which a later inflow with an already-present date
overwrites the stored amount (Python dict-comprehension semantics). -/
def dictInsert (l : List (ℕ × ℚ)) (p : ℕ × ℚ) : List (ℕ × ℚ) :=
  if l.any fun q => q.1 = p.1 then l.map fun q => if q.1 = p.1 then (q.1, p.2) else q
  else l ++ [p]

def buildDict (income : List Inflow) : List (ℕ × ℚ) :=
  income.foldl (fun acc i => dictInsert acc (i.date, i.amount)) []

/-- The inflow-application guard
`if inc_date and bill_date and inc_date <= bill_date`. -/
def applies (bill_date d : ℕ) : Prop := d ≠ 0 ∧ bill_date ≠ 0 ∧ d ≤ bill_date

instance : ∀ bill_date d, Decidable (applies bill_date d) := fun bd d =>
  inferInstanceAs (Decidable (_ ∧ _ ∧ _))

/-- Total amount the application loop adds to the balance before a bill
(entries already zeroed contribute 0, exactly as in the source loop). -/
def stepCredit (dict : List (ℕ × ℚ)) (bill_date : ℕ) : ℚ :=
  ((dict.filter fun p => applies bill_date p.1).map fun p => p.2).sum

/-- Zeroing `income_dates[inc_date] = 0  # Mark as received`. -/
def applyDict (dict : List (ℕ × ℚ)) (bill_date : ℕ) : List (ℕ × ℚ) :=
  dict.map fun p => if applies bill_date p.1 then (p.1, 0) else p

/-- One row of the payment schedule (the prose `recommendation` string is
omitted; `balance_after` is the reported `round(balance_after, 0)`). -/
structure Entry where
  bill : String
  amount : ℚ
  due_date : ℕ
  recommended_pay_date : ℕ
  status : String
  balance_after : ℚ
deriving DecidableEq

/-- Classification of a bill given the post-application dict and the
running balance `balance1` (inflows already applied). -/
def mkEntry (minimum_balance : ℚ) (dict : List (ℕ × ℚ)) (balance1 : ℚ) (b : Bill) :
    Entry :=
  let balance_after := balance1 - b.amount
  if minimum_balance ≤ balance_after then
    { bill := b.name, amount := b.amount, due_date := b.due_date
      recommended_pay_date := b.due_date, status := "PAY_ON_TIME"
      balance_after := pyRound0 balance_after }
  else if 0 ≤ balance_after then
    { bill := b.name, amount := b.amount, due_date := b.due_date
      recommended_pay_date := b.due_date, status := "PAY_WITH_CAUTION"
      balance_after := pyRound0 balance_after }
  else
    let future := dict.filter fun p => 0 < p.2 ∧ b.due_date < p.1
    { bill := b.name, amount := b.amount, due_date := b.due_date
      recommended_pay_date := ((future.head?).map Prod.fst).getD b.due_date
      status := "DELAY_NEEDED"
      balance_after := pyRound0 balance_after }

/-- State transition per bill: apply the due inflows to the balance, zero
them in the dict, subtract the bill, clamp the running balance at 0. -/
def stepState (st : ℚ × List (ℕ × ℚ)) (b : Bill) : ℚ × List (ℕ × ℚ) :=
  (max 0 (st.1 + stepCredit st.2 b.due_date - b.amount), applyDict st.2 b.due_date)

/-- The schedule rows produced by the bill loop. -/
def schedGo (minimum_balance : ℚ) (st : ℚ × List (ℕ × ℚ)) : List Bill → List Entry
  | [] => []
  | b :: rest =>
    mkEntry minimum_balance (applyDict st.2 b.due_date) (st.1 + stepCredit st.2 b.due_date) b ::
      schedGo minimum_balance (stepState st b) rest

/-- The running balance at the moment each bill is classified (after its
due inflows were applied, before the bill is paid). -/
def schedPre (st : ℚ × List (ℕ × ℚ)) : List Bill → List ℚ
  | [] => []
  | b :: rest => (st.1 + stepCredit st.2 b.due_date) :: schedPre (stepState st b) rest

/-- The amount credited to the running balance at each bill step. -/
def schedCredits (dict : List (ℕ × ℚ)) : List Bill → List ℚ
  | [] => []
  | b :: rest => stepCredit dict b.due_date :: schedCredits (applyDict dict b.due_date) rest

/-- Result of `optimize_payment_schedule` (prose `recommendations`
omitted). -/
structure SchedResult where
  current_balance : ℚ
  total_bills : ℚ
  total_income_expected : ℚ
  payment_schedule : List Entry
  crunch_alerts : List Entry
deriving DecidableEq

/-- Embedding of `optimize_payment_schedule` (cashflow_agent.py), over already-parsed
bill and inflow lists. -/
def optimize_payment_schedule (bills_due : List Bill) (income_schedule : List Inflow)
    (current_balance minimum_balance : ℚ) : SchedResult :=
  let bills := sortBills bills_due
  let income := sortInflows income_schedule
  let schedule := schedGo minimum_balance (current_balance, buildDict income) bills
  { current_balance := current_balance
    total_bills := (bills.map Bill.amount).sum
    total_income_expected := (income.map Inflow.amount).sum
    payment_schedule := schedule
    crunch_alerts := schedule.filter fun e => e.status = "DELAY_NEEDED" }

instance : IsTotal Bill billsByDate :=
  ⟨fun a b => le_total (dateKey a.due_date) (dateKey b.due_date)⟩

instance : IsTrans Bill billsByDate :=
  ⟨fun _ _ _ => le_trans⟩

instance : IsTotal Inflow inflowsByDate :=
  ⟨fun a b => le_total (dateKey a.date) (dateKey b.date)⟩

instance : IsTrans Inflow inflowsByDate :=
  ⟨fun _ _ _ => le_trans⟩

/-- Canonical shape of the inflow dict during the bill walk: every entry
whose (present) date is ≤ the threshold `t` has been zeroed. -/
def zeroAfter (t : ℕ) (pairs : List (ℕ × ℚ)) : List (ℕ × ℚ) :=
  pairs.map fun p => if p.1 ≠ 0 ∧ p.1 ≤ t then (p.1, 0) else p

theorem zeroAfter_zero (pairs : List (ℕ × ℚ)) : zeroAfter 0 pairs = pairs := by
  unfold zeroAfter
  induction pairs with
  | nil => rfl
  | cons p l ih =>
    simp only [List.map_cons]
    rw [if_neg (by omega), ih]

theorem applyDict_zeroAfter (t d : ℕ) (hd : d ≠ 0) (htd : t ≤ d) (pairs : List (ℕ × ℚ)) :
    applyDict (zeroAfter t pairs) d = zeroAfter d pairs := by
  unfold applyDict zeroAfter
  rw [List.map_map]
  apply List.map_congr_left
  intro p _
  by_cases hc1 : p.1 ≠ 0 ∧ p.1 ≤ t
  · simp only [Function.comp_apply]
    rw [if_pos hc1, if_pos (show applies d (p.1, (0:ℚ)).1 from ⟨hc1.1, hd, le_trans hc1.2 htd⟩),
      if_pos (show p.1 ≠ 0 ∧ p.1 ≤ d from ⟨hc1.1, le_trans hc1.2 htd⟩)]
  · simp only [Function.comp_apply]
    rw [if_neg hc1]
    by_cases hc2 : p.1 ≠ 0 ∧ p.1 ≤ d
    · rw [if_pos (show applies d p.1 from ⟨hc2.1, hd, hc2.2⟩), if_pos hc2]
    · rw [if_neg (show ¬ applies d p.1 from fun ha => hc2 ⟨ha.1, ha.2.2⟩), if_neg hc2]

theorem stepCredit_zeroAfter (t d : ℕ) (hd : d ≠ 0) (pairs : List (ℕ × ℚ)) :
    stepCredit (zeroAfter t pairs) d =
      ((pairs.filter fun p => p.1 ≠ 0 ∧ ¬ p.1 ≤ t ∧ p.1 ≤ d).map fun p => p.2).sum := by
  unfold stepCredit zeroAfter
  induction pairs with
  | nil => rfl
  | cons p l ih =>
    simp only [List.map_cons, List.filter_cons, decide_eq_true_eq]
    by_cases hc1 : p.1 ≠ 0 ∧ p.1 ≤ t
    · rw [if_pos hc1]
      -- whether or not p.1 ≤ d, the zeroed entry contributes 0 on the left
      -- and is excluded on the right
      by_cases hc2 : p.1 ≤ d
      · rw [if_pos (show applies d (p.1, (0:ℚ)).1 from ⟨hc1.1, hd, hc2⟩),
          if_neg (by omega)]
        simp only [List.map_cons, List.sum_cons]
        rw [ih]
        ring
      · rw [if_neg (show ¬ applies d (p.1, (0:ℚ)).1 from fun ha => hc2 ha.2.2),
          if_neg (by omega)]
        exact ih
    · rw [if_neg hc1]
      by_cases hc2 : p.1 ≠ 0 ∧ p.1 ≤ d
      · rw [if_pos (show applies d p.1 from ⟨hc2.1, hd, hc2.2⟩), if_pos (by omega)]
        simp only [List.map_cons, List.sum_cons]
        rw [ih]
      · rw [if_neg (show ¬ applies d p.1 from fun ha => hc2 ⟨ha.1, ha.2.2⟩),
          if_neg (by omega)]
        exact ih

theorem filter_sum_split (pairs : List (ℕ × ℚ)) (t m D : ℕ) (htm : t ≤ m) (hmD : m ≤ D) :
    ((pairs.filter fun p => p.1 ≠ 0 ∧ ¬ p.1 ≤ t ∧ p.1 ≤ m).map fun p => p.2).sum +
      ((pairs.filter fun p => p.1 ≠ 0 ∧ ¬ p.1 ≤ m ∧ p.1 ≤ D).map fun p => p.2).sum =
      ((pairs.filter fun p => p.1 ≠ 0 ∧ ¬ p.1 ≤ t ∧ p.1 ≤ D).map fun p => p.2).sum := by
  induction pairs with
  | nil => simp
  | cons p l ih =>
    simp only [List.filter_cons, decide_eq_true_eq]
    split_ifs with h1 h2 h3 h4 h5 h6 <;>
      first
        | omega
        | (simp only [List.map_cons, List.sum_cons]; linarith [ih])
        | exact ih

theorem buildDict_go (l : List Inflow) : ∀ acc : List (ℕ × ℚ),
    (acc.map Prod.fst ++ l.map Inflow.date).Nodup →
    l.foldl (fun acc i => dictInsert acc (i.date, i.amount)) acc =
      acc ++ l.map fun i => (i.date, i.amount) := by
  induction l with
  | nil => intro acc _; simp
  | cons i l ih =>
    intro acc hnd
    have hdisj : i.date ∉ acc.map Prod.fst := by
      rw [List.nodup_append] at hnd
      intro hmem
      exact hnd.2.2 hmem (by simp)
    have hnotin : ¬ (acc.any fun q => q.1 = i.date) = true := by
      rw [List.any_eq_true]
      rintro ⟨q, hq, hq2⟩
      rw [decide_eq_true_eq] at hq2
      exact hdisj (hq2 ▸ List.mem_map_of_mem Prod.fst hq)
    have hnd' : ((acc ++ [(i.date, i.amount)]).map Prod.fst ++ l.map Inflow.date).Nodup := by
      rw [List.map_append]
      simp only [List.map_cons, List.map_nil]
      rw [← List.append_cons]
      exact hnd
    simp only [List.foldl_cons]
    rw [dictInsert, if_neg hnotin, ih (acc ++ [(i.date, i.amount)]) hnd', List.append_assoc]
    simp

theorem buildDict_of_nodup (income : List Inflow) (hnd : (income.map Inflow.date).Nodup) :
    buildDict income = income.map fun i => (i.date, i.amount) := by
  unfold buildDict
  rw [buildDict_go income [] (by simpa using hnd)]
  simp

theorem schedCredits_spec (pairs : List (ℕ × ℚ)) :
    ∀ (bills : List Bill) (t : ℕ),
      List.Pairwise (fun a b : Bill => a.due_date ≤ b.due_date) bills →
      (∀ b ∈ bills, b.due_date ≠ 0) →
      (∀ b ∈ bills, t ≤ b.due_date) →
      ∀ k (hk : k < bills.length),
        ((schedCredits (zeroAfter t pairs) bills).take (k + 1)).sum =
          ((pairs.filter fun p =>
              p.1 ≠ 0 ∧ ¬ p.1 ≤ t ∧ p.1 ≤ (bills.get ⟨k, hk⟩).due_date).map
            fun p => p.2).sum := by
  intro bills
  induction bills with
  | nil =>
    intro t _ _ _ k hk
    exact absurd hk (by simp)
  | cons b rest ih =>
    intro t hsort hne ht k hk
    have hbne : b.due_date ≠ 0 := hne b (List.mem_cons_self b rest)
    have hbt : t ≤ b.due_date := ht b (List.mem_cons_self b rest)
    simp only [schedCredits]
    cases k with
    | zero =>
      simp only [List.take_succ_cons, List.take_zero, List.sum_cons, List.sum_nil, add_zero]
      exact stepCredit_zeroAfter t b.due_date hbne pairs
    | succ k =>
      have hrest : k < rest.length := by simpa using hk
      rw [List.take_succ_cons, List.sum_cons,
        stepCredit_zeroAfter t b.due_date hbne pairs,
        applyDict_zeroAfter t b.due_date hbne hbt pairs]
      have hpc := List.pairwise_cons.mp hsort
      rw [ih b.due_date hpc.2 (fun x hx => hne x (List.mem_cons_of_mem b hx))
        (fun x hx => hpc.1 x hx) k hrest]
      rw [List.get_cons_succ]
      exact filter_sum_split pairs t b.due_date (rest.get ⟨k, hrest⟩).due_date hbt
        (hpc.1 _ (List.get_mem rest k hrest))

/-- Correspondence between the filtered pair list built from inflows and
the filtered inflow list itself. -/
theorem sum_snd_filter_map (l : List Inflow) (P : ℕ → Prop) [DecidablePred P] :
    ((((l.map fun i => (i.date, i.amount)).filter fun p => P p.1).map fun p => p.2).sum =
      ((l.filter fun i => P i.date).map Inflow.amount).sum) := by
  induction l with
  | nil => rfl
  | cons i l ih =>
    simp only [List.map_cons, List.filter_cons, decide_eq_true_eq]
    by_cases h : P i.date
    · rw [if_pos h, if_pos h]
      simp only [List.map_cons, List.sum_cons]
      rw [ih]
    · rw [if_neg h, if_neg h]
      exact ih

/-- The formal statement of the claim on inflow application: walking the
sorted bills, the total amount credited to the running balance up to and
including the application phase of bill `k` equals the sum of the amounts
of all (dated) inflows whose date is ≤ that bill's due date — i.e. each
such inflow has been applied exactly once, and no inflow is ever
double-counted. -/
def inflowsCreditedOnce (bills_due : List Bill) (income_schedule : List Inflow) : Prop :=
  ∀ k (hk : k < (sortBills bills_due).length),
    (((schedCredits (buildDict (sortInflows income_schedule)) (sortBills bills_due)).take
        (k + 1)).sum =
      ((income_schedule.filter fun i =>
          i.date ≠ 0 ∧ i.date ≤ ((sortBills bills_due).get ⟨k, hk⟩).due_date).map
        Inflow.amount).sum)

/-- Entries zeroed by the walk never qualify as future income (their
amount is 0), and unzeroed entries keep their original condition, so the
`future_income` filter sees exactly the original pairs. -/
theorem filter_future_zeroAfter (d : ℕ) (pairs : List (ℕ × ℚ)) :
    ((zeroAfter d pairs).filter fun p => 0 < p.2 ∧ d < p.1) =
      pairs.filter fun p => 0 < p.2 ∧ d < p.1 := by
  unfold zeroAfter
  induction pairs with
  | nil => rfl
  | cons p l ih =>
    simp only [List.map_cons, List.filter_cons, decide_eq_true_eq]
    by_cases hc1 : p.1 ≠ 0 ∧ p.1 ≤ d
    · rw [if_pos hc1, if_neg (by norm_num), if_neg (fun hx => by omega)]
      exact ih
    · rw [if_neg hc1]
      by_cases hc2 : 0 < p.2 ∧ d < p.1
      · rw [if_pos hc2, if_pos hc2, ih]
      · rw [if_neg hc2, if_neg hc2]
        exact ih

/-- Default entry used with `List.getD`. -/
def dummyEntry : Entry :=
  { bill := "", amount := 0, due_date := 0, recommended_pay_date := 0, status := ""
    balance_after := 0 }

theorem schedGo_length (minB : ℚ) (st : ℚ × List (ℕ × ℚ)) (bills : List Bill) :
    (schedGo minB st bills).length = bills.length := by
  induction bills generalizing st with
  | nil => rfl
  | cons b rest ih => simp [schedGo, ih]

theorem schedPre_length (st : ℚ × List (ℕ × ℚ)) (bills : List Bill) :
    (schedPre st bills).length = bills.length := by
  induction bills generalizing st with
  | nil => rfl
  | cons b rest ih => simp [schedPre, ih]

theorem schedGo_spec (minB : ℚ) (pairs : List (ℕ × ℚ))
    (hps : List.Pairwise (fun p q : ℕ × ℚ => p.1 ≤ q.1) pairs) :
    ∀ (bills : List Bill) (t : ℕ) (balance : ℚ),
      List.Pairwise (fun a b : Bill => a.due_date ≤ b.due_date) bills →
      (∀ b ∈ bills, b.due_date ≠ 0) →
      (∀ b ∈ bills, t ≤ b.due_date) →
      ∀ k (hk : k < bills.length),
        (((schedGo minB (balance, zeroAfter t pairs) bills).getD k dummyEntry).amount =
            (bills.get ⟨k, hk⟩).amount) ∧
        (((schedGo minB (balance, zeroAfter t pairs) bills).getD k dummyEntry).due_date =
            (bills.get ⟨k, hk⟩).due_date) ∧
        (((schedGo minB (balance, zeroAfter t pairs) bills).getD k dummyEntry).balance_after =
            pyRound0 ((schedPre (balance, zeroAfter t pairs) bills).getD k 0 -
              (bills.get ⟨k, hk⟩).amount)) ∧
        (((schedGo minB (balance, zeroAfter t pairs) bills).getD k dummyEntry).status =
            "PAY_ON_TIME" ↔
          minB ≤ (schedPre (balance, zeroAfter t pairs) bills).getD k 0 -
            (bills.get ⟨k, hk⟩).amount) ∧
        (((schedGo minB (balance, zeroAfter t pairs) bills).getD k dummyEntry).status =
            "PAY_WITH_CAUTION" ↔
          (0 ≤ (schedPre (balance, zeroAfter t pairs) bills).getD k 0 -
              (bills.get ⟨k, hk⟩).amount ∧
            (schedPre (balance, zeroAfter t pairs) bills).getD k 0 -
              (bills.get ⟨k, hk⟩).amount < minB)) ∧
        (0 ≤ minB →
          (((schedGo minB (balance, zeroAfter t pairs) bills).getD k dummyEntry).status =
              "DELAY_NEEDED" ↔
            (schedPre (balance, zeroAfter t pairs) bills).getD k 0 -
              (bills.get ⟨k, hk⟩).amount < 0)) ∧
        (((schedGo minB (balance, zeroAfter t pairs) bills).getD k dummyEntry).status =
            "DELAY_NEEDED" →
          ((¬ ∃ p ∈ pairs, 0 < p.2 ∧ (bills.get ⟨k, hk⟩).due_date < p.1) →
            ((schedGo minB (balance, zeroAfter t pairs) bills).getD k
              dummyEntry).recommended_pay_date = (bills.get ⟨k, hk⟩).due_date) ∧
          (∀ p ∈ pairs, 0 < p.2 → (bills.get ⟨k, hk⟩).due_date < p.1 →
            ∃ q ∈ pairs, 0 < q.2 ∧ (bills.get ⟨k, hk⟩).due_date < q.1 ∧
              ((schedGo minB (balance, zeroAfter t pairs) bills).getD k
                dummyEntry).recommended_pay_date = q.1 ∧
              ∀ r ∈ pairs, 0 < r.2 → (bills.get ⟨k, hk⟩).due_date < r.1 → q.1 ≤ r.1)) := by
  intro bills
  induction bills with
  | nil =>
    intro t balance _ _ _ k hk
    exact absurd hk (by simp)
  | cons b rest ih =>
    intro t balance hsort hne ht k hk
    have hbne : b.due_date ≠ 0 := hne b (List.mem_cons_self b rest)
    have hbt : t ≤ b.due_date := ht b (List.mem_cons_self b rest)
    have hpc := List.pairwise_cons.mp hsort
    cases k with
    | succ k =>
      have hrest : k < rest.length := by simpa using hk
      have hstep : stepState (balance, zeroAfter t pairs) b =
          (max 0 (balance + stepCredit (zeroAfter t pairs) b.due_date - b.amount),
            zeroAfter b.due_date pairs) := by
        unfold stepState
        rw [applyDict_zeroAfter t b.due_date hbne hbt pairs]
      have hih := ih b.due_date
        (max 0 (balance + stepCredit (zeroAfter t pairs) b.due_date - b.amount)) hpc.2
        (fun x hx => hne x (List.mem_cons_of_mem b hx)) (fun x hx => hpc.1 x hx) k hrest
      simp only [schedGo, schedPre, List.getD_cons_succ, List.get_cons_succ]
      rw [show schedGo minB (stepState (balance, zeroAfter t pairs) b) rest =
          schedGo minB (max 0 (balance + stepCredit (zeroAfter t pairs) b.due_date -
            b.amount), zeroAfter b.due_date pairs) rest from by rw [hstep],
        show schedPre (stepState (balance, zeroAfter t pairs) b) rest =
          schedPre (max 0 (balance + stepCredit (zeroAfter t pairs) b.due_date -
            b.amount), zeroAfter b.due_date pairs) rest from by rw [hstep]]
      exact hih
    | zero =>
      simp only [schedGo, schedPre, List.getD_cons_zero, List.get_cons_zero]
      rw [applyDict_zeroAfter t b.due_date hbne hbt pairs]
      unfold mkEntry
      by_cases hc1 : minB ≤ balance + stepCredit (zeroAfter t pairs) b.due_date - b.amount
      · rw [if_pos hc1]
        refine ⟨rfl, rfl, rfl, ?_, ?_, ?_, ?_⟩
        · exact ⟨fun _ => hc1, fun _ => rfl⟩
        · constructor
          · intro hs
            simp at hs
          · intro hlt
            exact absurd hc1 (not_le.mpr hlt.2)
        · intro hminB
          constructor
          · intro hs
            simp at hs
          · intro hlt
            exact absurd hc1 (not_le.mpr (lt_of_lt_of_le hlt hminB))
        · intro hs
          simp at hs
      · rw [if_neg hc1]
        by_cases hc2 : 0 ≤ balance + stepCredit (zeroAfter t pairs) b.due_date - b.amount
        · rw [if_pos hc2]
          refine ⟨rfl, rfl, rfl, ?_, ?_, ?_, ?_⟩
          · constructor
            · intro hs
              simp at hs
            · intro hle
              exact absurd hle hc1
          · exact ⟨fun _ => ⟨hc2, not_le.mp hc1⟩, fun _ => rfl⟩
          · intro hminB
            constructor
            · intro hs
              simp at hs
            · intro hlt
              exact absurd hc2 (not_le.mpr hlt)
          · intro hs
            simp at hs
        · rw [if_neg hc2]
          refine ⟨rfl, rfl, rfl, ?_, ?_, ?_, ?_⟩
          · constructor
            · intro hs
              simp at hs
            · intro hle
              exact absurd (le_trans (le_refl _) hle) hc1
          · constructor
            · intro hs
              simp at hs
            · intro hlt
              exact absurd hlt.1 hc2
          · intro _
            exact ⟨fun _ => not_le.mp hc2, fun _ => rfl⟩
          · intro _
            rw [filter_future_zeroAfter b.due_date pairs]
            constructor
            · intro hnone
              have hempty : (pairs.filter fun p => 0 < p.2 ∧ b.due_date < p.1) = [] := by
                rw [List.filter_eq_nil_iff]
                intro p hp
                rw [decide_eq_true_eq]
                intro hcond
                exact hnone ⟨p, hp, hcond⟩
              rw [hempty]
              rfl
            · intro p hp hp2 hp3
              have hform : ∃ q qs,
                  (pairs.filter fun p => 0 < p.2 ∧ b.due_date < p.1) = q :: qs := by
                rcases hq : pairs.filter fun p => 0 < p.2 ∧ b.due_date < p.1 with _ | ⟨q, qs⟩
                · exfalso
                  have : p ∈ pairs.filter fun p => 0 < p.2 ∧ b.due_date < p.1 := by
                    rw [List.mem_filter, decide_eq_true_eq]
                    exact ⟨hp, hp2, hp3⟩
                  rw [hq] at this
                  exact absurd this (List.not_mem_nil p)
                · exact ⟨q, qs, hq⟩
              obtain ⟨q, qs, hq⟩ := hform
              have hqmem : q ∈ pairs.filter fun p => 0 < p.2 ∧ b.due_date < p.1 := by
                rw [hq]
                exact List.mem_cons_self q qs
              rw [List.mem_filter, decide_eq_true_eq] at hqmem
              refine ⟨q, hqmem.1, hqmem.2.1, hqmem.2.2, by rw [hq]; rfl, ?_⟩
              intro r hr hr1 hr2
              have hrmem : r ∈ pairs.filter fun p => 0 < p.2 ∧ b.due_date < p.1 := by
                rw [List.mem_filter, decide_eq_true_eq]
                exact ⟨hr, hr1, hr2⟩
              have hsorted : List.Pairwise (fun p q : ℕ × ℚ => p.1 ≤ q.1)
                  (pairs.filter fun p => 0 < p.2 ∧ b.due_date < p.1) :=
                hps.filter _
              rw [hq] at hrmem hsorted
              rcases List.mem_cons.mp hrmem with hrq | hrqs
              · rw [hrq]
              · exact (List.pairwise_cons.mp hsorted).1 r hrqs

theorem optimize_payment_schedule_sched (bills_due : List Bill)
    (income_schedule : List Inflow) (cb minB : ℚ) :
    (optimize_payment_schedule bills_due income_schedule cb minB).payment_schedule =
      schedGo minB (cb, buildDict (sortInflows income_schedule)) (sortBills bills_due) :=
  rfl

theorem sortBills_pairwise (bills_due : List Bill)
    (hbd : ∀ b ∈ bills_due, b.due_date ≠ 0) :
    List.Pairwise (fun a b : Bill => a.due_date ≤ b.due_date) (sortBills bills_due) := by
  have hbperm : (sortBills bills_due).Perm bills_due :=
    List.perm_insertionSort billsByDate bills_due
  have hbd' : ∀ b ∈ sortBills bills_due, b.due_date ≠ 0 :=
    fun b hb => hbd b (hbperm.mem_iff.mp hb)
  have hs : List.Sorted billsByDate (sortBills bills_due) :=
    List.sorted_insertionSort billsByDate bills_due
  refine hs.imp_of_mem ?_
  intro a b ha hb hab
  have ha0 := hbd' a ha
  have hb0 := hbd' b hb
  unfold billsByDate dateKey at hab
  rw [if_neg ha0, if_neg hb0] at hab
  exact_mod_cast hab

theorem sortInflows_pairs_pairwise (income_schedule : List Inflow)
    (hid : ∀ i ∈ income_schedule, i.date ≠ 0) :
    List.Pairwise (fun p q : ℕ × ℚ => p.1 ≤ q.1)
      ((sortInflows income_schedule).map fun i => (i.date, i.amount)) := by
  rw [List.pairwise_map]
  have hperm : (sortInflows income_schedule).Perm income_schedule :=
    List.perm_insertionSort inflowsByDate income_schedule
  have hid' : ∀ i ∈ sortInflows income_schedule, i.date ≠ 0 :=
    fun i hi => hid i (hperm.mem_iff.mp hi)
  have hs : List.Sorted inflowsByDate (sortInflows income_schedule) :=
    List.sorted_insertionSort inflowsByDate income_schedule
  refine hs.imp_of_mem ?_
  intro a b ha hb hab
  have ha0 := hid' a ha
  have hb0 := hid' b hb
  unfold inflowsByDate dateKey at hab
  rw [if_neg ha0, if_neg hb0] at hab
  exact_mod_cast hab

theorem pairs_mem_transport (income_schedule : List Inflow) (p : ℕ × ℚ) :
    (p ∈ (sortInflows income_schedule).map fun i => (i.date, i.amount)) ↔
      ∃ i ∈ income_schedule, (i.date, i.amount) = p := by
  rw [List.mem_map]
  have hperm : (sortInflows income_schedule).Perm income_schedule :=
    List.perm_insertionSort inflowsByDate income_schedule
  constructor
  · rintro ⟨i, hi, hip⟩
    exact ⟨i, hperm.mem_iff.mp hi, hip⟩
  · rintro ⟨i, hi, hip⟩
    exact ⟨i, hperm.mem_iff.mpr hi, hip⟩

/-- The formal statement of the classification claim: for every obligation
in the sorted walk, `balance_after` is the running balance at
classification time minus the obligation's amount (reported rounded), the
status label matches the thresholds exactly, and in the delay case the
suggested date is the smallest not-yet-applied inflow date strictly after
the due date (with no regard to the remaining amount), or the due date if
none exists. -/
def schedulerClaim (bills_due : List Bill) (income_schedule : List Inflow)
    (current_balance minimum_balance : ℚ) : Prop :=
  ∀ k (hk : k < (sortBills bills_due).length),
    let b := (sortBills bills_due).get ⟨k, hk⟩
    let e := ((optimize_payment_schedule bills_due income_schedule current_balance
        minimum_balance).payment_schedule).getD k dummyEntry
    let pre := (schedPre (current_balance, buildDict (sortInflows income_schedule))
        (sortBills bills_due)).getD k 0
    e.balance_after = pyRound0 (pre - b.amount) ∧
    (e.status = "PAY_ON_TIME" ↔ minimum_balance ≤ pre - b.amount) ∧
    (e.status = "PAY_WITH_CAUTION" ↔
      (0 ≤ pre - b.amount ∧ pre - b.amount < minimum_balance)) ∧
    (e.status = "DELAY_NEEDED" ↔ pre - b.amount < 0) ∧
    (e.status = "DELAY_NEEDED" →
      ((¬ ∃ i ∈ income_schedule, b.due_date < i.date) →
        e.recommended_pay_date = b.due_date) ∧
      (∀ i ∈ income_schedule, b.due_date < i.date →
        ∃ j ∈ income_schedule, b.due_date < j.date ∧ e.recommended_pay_date = j.date ∧
          ∀ r ∈ income_schedule, b.due_date < r.date → j.date ≤ r.date))

end CashflowAgent

/-- C5 (counterexample): one bill of 100 due at date 2 with balance 0 and
floor 0 is classified delay-needed; the only inflow is dated 5 (after the
due date, hence never applied) but has amount 0, so the code keeps the
original due date 2 while the claim's "next unapplied inflow date strictly
after the due date" would be 5. -/
theorem scheduler_claim_fails_on_zero_amount_inflow :
    ¬ CashflowAgent.schedulerClaim [⟨"A", 100, 2⟩] [⟨"X", 0, 5⟩] 0 0 := by
  intro h
  have hk : 0 < (CashflowAgent.sortBills [⟨"A", 100, 2⟩]).length := by
    norm_num [CashflowAgent.sortBills, List.insertionSort, List.orderedInsert]
  have hstat : (((CashflowAgent.optimize_payment_schedule [⟨"A", 100, 2⟩]
      [⟨"X", 0, 5⟩] 0 0).payment_schedule).getD 0 CashflowAgent.dummyEntry).status =
      "DELAY_NEEDED" := by
    norm_num [CashflowAgent.optimize_payment_schedule, CashflowAgent.sortBills,
      CashflowAgent.sortInflows, List.insertionSort, List.orderedInsert,
      CashflowAgent.buildDict, CashflowAgent.dictInsert, CashflowAgent.schedGo,
      CashflowAgent.stepState, CashflowAgent.stepCredit, CashflowAgent.applyDict,
      CashflowAgent.applies, CashflowAgent.mkEntry, CashflowAgent.billsByDate,
      CashflowAgent.inflowsByDate, CashflowAgent.dateKey, CashflowAgent.dummyEntry,
      List.filter]
  have hpay : (((CashflowAgent.optimize_payment_schedule [⟨"A", 100, 2⟩]
      [⟨"X", 0, 5⟩] 0 0).payment_schedule).getD 0
      CashflowAgent.dummyEntry).recommended_pay_date = 2 := by
    norm_num [CashflowAgent.optimize_payment_schedule, CashflowAgent.sortBills,
      CashflowAgent.sortInflows, List.insertionSort, List.orderedInsert,
      CashflowAgent.buildDict, CashflowAgent.dictInsert, CashflowAgent.schedGo,
      CashflowAgent.stepState, CashflowAgent.stepCredit, CashflowAgent.applyDict,
      CashflowAgent.applies, CashflowAgent.mkEntry, CashflowAgent.billsByDate,
      CashflowAgent.inflowsByDate, CashflowAgent.dateKey, CashflowAgent.dummyEntry,
      List.filter]
  obtain ⟨-, -, -, -, hdel⟩ := h 0 hk
  obtain ⟨j, hjmem, hj1, hj2, -⟩ := (hdel hstat).2 ⟨"X", 0, 5⟩ (by simp)
    (by norm_num [CashflowAgent.sortBills, List.insertionSort, List.orderedInsert])
  have hj : j = (⟨"X", 0, 5⟩ : CashflowAgent.Inflow) := by simpa using hjmem
  rw [hpay, hj] at hj2
  norm_num at hj2

/-- C5 (amended): under distinct, present inflow dates, present bill
dates and a nonnegative floor, every obligation in the sorted walk
satisfies: the reported `balance_after` is the running balance at
classification time minus the obligation's amount (rounded for display);
the status is pay-on-time iff `balance_after ≥ floor` (boundary
included), pay-with-caution iff `0 ≤ balance_after < floor`, delay-needed
iff `balance_after < 0`; and in the delay case the suggested date is the
smallest inflow date strictly after the due date whose unconsumed amount
is positive (zero-amount inflows are skipped), or the due date if none
exists. -/
theorem scheduler_classification_correct (bills_due : List CashflowAgent.Bill)
    (income_schedule : List CashflowAgent.Inflow) (current_balance minimum_balance : ℚ)
    (hnd : (income_schedule.map CashflowAgent.Inflow.date).Nodup)
    (hid : ∀ i ∈ income_schedule, i.date ≠ 0)
    (hbd : ∀ b ∈ bills_due, b.due_date ≠ 0)
    (hminB : 0 ≤ minimum_balance) :
    ∀ k (hk : k < (CashflowAgent.sortBills bills_due).length),
      let b := (CashflowAgent.sortBills bills_due).get ⟨k, hk⟩
      let e := ((CashflowAgent.optimize_payment_schedule bills_due income_schedule
          current_balance minimum_balance).payment_schedule).getD k
          CashflowAgent.dummyEntry
      let pre := (CashflowAgent.schedPre (current_balance,
          CashflowAgent.buildDict (CashflowAgent.sortInflows income_schedule))
          (CashflowAgent.sortBills bills_due)).getD k 0
      e.balance_after = pyRound0 (pre - b.amount) ∧
      (e.status = "PAY_ON_TIME" ↔ minimum_balance ≤ pre - b.amount) ∧
      (e.status = "PAY_WITH_CAUTION" ↔
        (0 ≤ pre - b.amount ∧ pre - b.amount < minimum_balance)) ∧
      (e.status = "DELAY_NEEDED" ↔ pre - b.amount < 0) ∧
      (e.status = "DELAY_NEEDED" →
        ((¬ ∃ i ∈ income_schedule, 0 < i.amount ∧ b.due_date < i.date) →
          e.recommended_pay_date = b.due_date) ∧
        (∀ i ∈ income_schedule, 0 < i.amount → b.due_date < i.date →
          ∃ j ∈ income_schedule, 0 < j.amount ∧ b.due_date < j.date ∧
            e.recommended_pay_date = j.date ∧
            ∀ r ∈ income_schedule, 0 < r.amount → b.due_date < r.date →
              j.date ≤ r.date)) := by
  intro k hk
  dsimp only
  have hperm : (CashflowAgent.sortInflows income_schedule).Perm income_schedule :=
    List.perm_insertionSort CashflowAgent.inflowsByDate income_schedule
  have hnd' : ((CashflowAgent.sortInflows income_schedule).map
      CashflowAgent.Inflow.date).Nodup :=
    ((hperm.map CashflowAgent.Inflow.date).nodup_iff).mpr hnd
  have hid' : ∀ i ∈ CashflowAgent.sortInflows income_schedule, i.date ≠ 0 :=
    fun i hi => hid i (hperm.mem_iff.mp hi)
  have hps := CashflowAgent.sortInflows_pairs_pairwise income_schedule hid
  have hsorted := CashflowAgent.sortBills_pairwise bills_due hbd
  have hbperm : (CashflowAgent.sortBills bills_due).Perm bills_due :=
    List.perm_insertionSort CashflowAgent.billsByDate bills_due
  have hbd' : ∀ b ∈ CashflowAgent.sortBills bills_due, b.due_date ≠ 0 :=
    fun b hb => hbd b (hbperm.mem_iff.mp hb)
  have hdict : CashflowAgent.buildDict (CashflowAgent.sortInflows income_schedule) =
      CashflowAgent.zeroAfter 0 ((CashflowAgent.sortInflows income_schedule).map
        fun i => (i.date, i.amount)) := by
    rw [CashflowAgent.buildDict_of_nodup _ hnd', CashflowAgent.zeroAfter_zero]
  obtain ⟨-, -, h3, h4, h5, h6, h7⟩ :=
    CashflowAgent.schedGo_spec minimum_balance
      ((CashflowAgent.sortInflows income_schedule).map fun i => (i.date, i.amount)) hps
      (CashflowAgent.sortBills bills_due) 0 current_balance hsorted hbd'
      (fun b _ => Nat.zero_le _) k hk
  rw [CashflowAgent.optimize_payment_schedule_sched, hdict]
  refine ⟨h3, h4, h5, h6 hminB, ?_⟩
  intro hst
  obtain ⟨hA, hB⟩ := h7 hst
  constructor
  · intro hno
    apply hA
    rintro ⟨p, hp, hp1, hp2⟩
    rw [CashflowAgent.pairs_mem_transport] at hp
    obtain ⟨i, hi, hip⟩ := hp
    rw [← hip] at hp1 hp2
    exact hno ⟨i, hi, hp1, hp2⟩
  · intro i hi hiamt hidate
    have hp : (i.date, i.amount) ∈
        (CashflowAgent.sortInflows income_schedule).map fun i => (i.date, i.amount) :=
      (CashflowAgent.pairs_mem_transport income_schedule _).mpr ⟨i, hi, rfl⟩
    obtain ⟨q, hq, hq1, hq2, hq3, hq4⟩ := hB (i.date, i.amount) hp hiamt hidate
    rw [CashflowAgent.pairs_mem_transport] at hq
    obtain ⟨j, hj, hjq⟩ := hq
    rw [← hjq] at hq1 hq2 hq3
    refine ⟨j, hj, hq1, hq2, hq3, ?_⟩
    intro r hr hr1 hr2
    have hrq := hq4 (r.date, r.amount)
      ((CashflowAgent.pairs_mem_transport income_schedule _).mpr ⟨r, hr, rfl⟩) hr1 hr2
    rw [← hjq] at hrq
    exact hrq

/-- C5 (witness): one bill of 100 due at date 2, balance 0, floor 0, and
one positive inflow of 50 at date 5, instantiated at the first (and only)
obligation. -/
theorem scheduler_classification_correct_witness :
    ((([⟨"Sal", 50, 5⟩] : List CashflowAgent.Inflow).map
        CashflowAgent.Inflow.date).Nodup) ∧
      (let b := (CashflowAgent.sortBills [⟨"A", 100, 2⟩]).get
          ⟨0, by norm_num [CashflowAgent.sortBills, List.insertionSort, List.orderedInsert]⟩
       let e := ((CashflowAgent.optimize_payment_schedule [⟨"A", 100, 2⟩] [⟨"Sal", 50, 5⟩]
          0 0).payment_schedule).getD 0 CashflowAgent.dummyEntry
       let pre := (CashflowAgent.schedPre (0,
          CashflowAgent.buildDict (CashflowAgent.sortInflows [⟨"Sal", 50, 5⟩]))
          (CashflowAgent.sortBills [⟨"A", 100, 2⟩])).getD 0 0
       e.balance_after = pyRound0 (pre - b.amount) ∧
       (e.status = "PAY_ON_TIME" ↔ (0:ℚ) ≤ pre - b.amount) ∧
       (e.status = "PAY_WITH_CAUTION" ↔
         (0 ≤ pre - b.amount ∧ pre - b.amount < (0:ℚ))) ∧
       (e.status = "DELAY_NEEDED" ↔ pre - b.amount < 0) ∧
       (e.status = "DELAY_NEEDED" →
         ((¬ ∃ i ∈ ([⟨"Sal", 50, 5⟩] : List CashflowAgent.Inflow),
             0 < i.amount ∧ b.due_date < i.date) →
           e.recommended_pay_date = b.due_date) ∧
         (∀ i ∈ ([⟨"Sal", 50, 5⟩] : List CashflowAgent.Inflow),
           0 < i.amount → b.due_date < i.date →
           ∃ j ∈ ([⟨"Sal", 50, 5⟩] : List CashflowAgent.Inflow),
             0 < j.amount ∧ b.due_date < j.date ∧
             e.recommended_pay_date = j.date ∧
             ∀ r ∈ ([⟨"Sal", 50, 5⟩] : List CashflowAgent.Inflow),
               0 < r.amount → b.due_date < r.date → j.date ≤ r.date))) :=
  ⟨by simp,
    scheduler_classification_correct [⟨"A", 100, 2⟩] [⟨"Sal", 50, 5⟩] 0 0 (by simp)
      (by simp) (by simp) (le_refl 0) 0
      (by norm_num [CashflowAgent.sortBills, List.insertionSort, List.orderedInsert])⟩

namespace AgentsRoutes

/-!
Embedding of the `/simulator/run` endpoint `run_life_simulation`
(routes/agents.py).  The prose `aiAnalysis` block and the auxiliary
investment projection attached to the response are omitted; every numeric
field of the year trace and summary is kept.  A raised exception is
modelled as `none`.
-/

/-- One selected life event: `{name, year (trigger age), cost}`. -/
structure LifeEvent where
  name : String
  year : ℕ
  cost : ℚ
deriving DecidableEq

/-- The request body (the `user_id` string is irrelevant and omitted). -/
structure SimRequest where
  current_age : ℕ
  retirement_age : ℕ
  current_income : ℚ
  current_savings : ℚ
  monthly_expenses : ℚ
  selected_events : List LifeEvent
deriving DecidableEq

/-- The mutable loop state: `net_worth` and `income`. -/
structure LifeState where
  netWorth : ℚ
  income : ℚ
deriving DecidableEq

/-- Event costs `sum(e.get('cost', 0) for e in events_this_year)` where
`events_this_year` filters by `e.get('year') == age`. -/
def eventCostAt (events : List LifeEvent) (age : ℕ) : ℚ :=
  ((events.filter fun e => e.year = age).map LifeEvent.cost).sum

/-- The per-year income update: age-banded raises pre-retirement, the 4%
rule plus estimated social security exactly at the retirement age, income
unchanged afterwards. -/
def updateIncome (req : SimRequest) (s : LifeState) (age : ℕ) : ℚ :=
  if age < req.retirement_age then
    if age - req.current_age < 10 then s.income * 1.04
    else if age - req.current_age < 20 then s.income * 1.03
    else s.income * 1.02
  else if age = req.retirement_age then s.netWorth * 0.04 + 24000
  else s.income

/-- Expenses `annual_expenses * ((1 + inflation_rate) ** years_from_start)` with
`inflation_rate = 0.025` and `annual_expenses = monthly_expenses * 12`. -/
def adjustedExpenses (req : SimRequest) (age : ℕ) : ℚ :=
  (req.monthly_expenses * 12) * (1 + 0.025) ^ (age - req.current_age)

/-- The age-banded investment return. -/
def investmentReturn (age : ℕ) : ℚ :=
  if age < 40 then 0.08 else if age < 55 then 0.07 else 0.05

/-- Savings `savings = income - adjusted_expenses - event_costs` (the year's
net-savings term). -/
def savingsAt (req : SimRequest) (events : List LifeEvent) (s : LifeState) (age : ℕ) : ℚ :=
  updateIncome req s age - adjustedExpenses req age - eventCostAt events age

/-- Update `net_worth = net_worth * (1 + investment_return) + savings`, with the
income variable updated first. -/
def stepLifeState (req : SimRequest) (events : List LifeEvent) (s : LifeState)
    (age : ℕ) : LifeState :=
  { netWorth := s.netWorth * (1 + investmentReturn age) + savingsAt req events s age
    income := updateIncome req s age }

/-- One entry of the `results` list (all monetary fields reported via
Python's `round`). -/
structure YearRec where
  year : ℕ
  age : ℕ
  netWorth : ℤ
  income : ℤ
  expenses : ℤ
  savings : ℤ
  events : List String
  status : String
deriving DecidableEq

def mkYearRec (req : SimRequest) (events : List LifeEvent) (s : LifeState)
    (age : ℕ) : YearRec :=
  let inc := updateIncome req s age
  let exp := adjustedExpenses req age
  let evc := eventCostAt events age
  let sav := inc - exp - evc
  let nw := s.netWorth * (1 + investmentReturn age) + sav
  { year := 2025 + (age - req.current_age)
    age := age
    netWorth := pyRound nw
    income := pyRound inc
    expenses := pyRound (exp + evc)
    savings := pyRound sav
    events := (events.filter fun e => e.year = age).map LifeEvent.name
    status := if nw < 0 then "negative" else if sav < 0 then "warning" else "positive" }

/-- The `results` list built by the year loop. -/
def lifeRecords (req : SimRequest) (events : List LifeEvent) (s : LifeState) :
    List ℕ → List YearRec
  | [] => []
  | a :: rest =>
    mkYearRec req events s a :: lifeRecords req events (stepLifeState req events s a) rest

/-- The raw (unrounded) net-savings term of each simulated year. -/
def lifeSavings (req : SimRequest) (events : List LifeEvent) (s : LifeState) :
    List ℕ → List ℚ
  | [] => []
  | a :: rest =>
    savingsAt req events s a :: lifeSavings req events (stepLifeState req events s a) rest

/-- The loop state after simulating a list of ages. -/
def lifeStateAfter (req : SimRequest) (events : List LifeEvent) (s : LifeState) :
    List ℕ → LifeState
  | [] => s
  | a :: rest => lifeStateAfter req events (stepLifeState req events s a) rest

/-- The raw net worth after each simulated year, with its age. -/
def lifeRawNetWorths (req : SimRequest) (events : List LifeEvent) (s : LifeState) :
    List ℕ → List (ℕ × ℚ)
  | [] => []
  | a :: rest =>
    (a, (stepLifeState req events s a).netWorth) ::
      lifeRawNetWorths req events (stepLifeState req events s a) rest

/-- Ages `range(current_age, retirement_age + 11)`. -/
def simAges (req : SimRequest) : List ℕ :=
  List.range' req.current_age (req.retirement_age + 11 - req.current_age)

def dummyYearRec : YearRec :=
  { year := 0, age := 0, netWorth := 0, income := 0, expenses := 0, savings := 0
    events := [], status := "" }

/-- The structured response (year trace, summary and scenario bands; the
prose analysis and the attached investment projection are omitted). -/
structure LifeResult where
  results : List YearRec
  retirementNetWorth : ℤ
  totalEventCosts : ℚ
  eventsCount : ℕ
  isOnTrack : Bool
  yearsOfExpenses : ℤ
  peakNetWorth : ℤ
  peakAge : ℕ
  finalNetWorth : ℤ
  savingsRate : ℚ
  optimisticNetWorth : ℤ
  pessimisticNetWorth : ℤ
deriving DecidableEq

/-- Embedding of `run_life_simulation` (routes/agents.py).  When the simulated age
range is empty the source evaluates `results[-1]` (the eager default of
`next(...)`) on an empty list and raises `IndexError`; this is `none`. -/
def run_life_simulation (req : SimRequest) : Option LifeResult :=
  let annual_expenses := req.monthly_expenses * 12
  let init : LifeState := { netWorth := req.current_savings, income := req.current_income }
  let results := lifeRecords req req.selected_events init (simAges req)
  if results.isEmpty then none
  else
    let retirement_result :=
      (results.find? fun r => r.age = req.retirement_age).getD (results.getLastD dummyYearRec)
    let peak := (lifeRawNetWorths req req.selected_events init (simAges req)).foldl
      (fun p x => if p.1 < x.2 then (x.2, x.1) else p) (req.current_savings, req.current_age)
    some
      { results := results
        retirementNetWorth := retirement_result.netWorth
        totalEventCosts := (req.selected_events.map LifeEvent.cost).sum
        eventsCount := req.selected_events.length
        isOnTrack := results.all fun r => r.status ≠ "negative"
        yearsOfExpenses :=
          if 0 < annual_expenses then
            pyRound ((retirement_result.netWorth : ℚ) / annual_expenses)
          else 0
        peakNetWorth := pyRound peak.1
        peakAge := peak.2
        finalNetWorth := (results.getLastD dummyYearRec).netWorth
        savingsRate :=
          if 0 < req.current_income then
            pyRound1 ((req.current_income - annual_expenses) / req.current_income * 100)
          else 0
        optimisticNetWorth := pyRound ((retirement_result.netWorth : ℚ) * 1.3)
        pessimisticNetWorth := pyRound ((retirement_result.netWorth : ℚ) * 0.6) }

theorem eventCostAt_nil (age : ℕ) : eventCostAt [] age = 0 := rfl

theorem eventCostAt_single_ne (ev : LifeEvent) (age : ℕ) (h : age ≠ ev.year) :
    eventCostAt [ev] age = 0 := by
  simp only [eventCostAt, List.filter_cons, decide_eq_true_eq, List.filter_nil]
  rw [if_neg (fun he => h he.symm)]
  rfl

theorem eventCostAt_single_eq (ev : LifeEvent) : eventCostAt [ev] ev.year = ev.cost := by
  simp [eventCostAt]

theorem lifeSavings_no_event (req : SimRequest) (ev : LifeEvent) :
    ∀ (ages : List ℕ) (s : LifeState), (∀ a ∈ ages, a ≠ ev.year) →
      lifeSavings req [ev] s ages = lifeSavings req [] s ages := by
  intro ages
  induction ages with
  | nil => intro s _; rfl
  | cons a rest ih =>
    intro s hne
    have ha : a ≠ ev.year := hne a (List.mem_cons_self a rest)
    have hsav : savingsAt req [ev] s a = savingsAt req [] s a := by
      unfold savingsAt
      rw [eventCostAt_single_ne ev a ha, eventCostAt_nil]
    have hstep : stepLifeState req [ev] s a = stepLifeState req [] s a := by
      unfold stepLifeState
      rw [hsav]
    simp only [lifeSavings]
    rw [hsav, hstep, ih _ (fun x hx => hne x (List.mem_cons_of_mem _ hx))]

theorem lifeStateAfter_no_event (req : SimRequest) (ev : LifeEvent) :
    ∀ (ages : List ℕ) (s : LifeState), (∀ a ∈ ages, a ≠ ev.year) →
      lifeStateAfter req [ev] s ages = lifeStateAfter req [] s ages := by
  intro ages
  induction ages with
  | nil => intro s _; rfl
  | cons a rest ih =>
    intro s hne
    have ha : a ≠ ev.year := hne a (List.mem_cons_self a rest)
    have hstep : stepLifeState req [ev] s a = stepLifeState req [] s a := by
      unfold stepLifeState savingsAt
      rw [eventCostAt_single_ne ev a ha, eventCostAt_nil]
    simp only [lifeStateAfter]
    rw [hstep, ih _ (fun x hx => hne x (List.mem_cons_of_mem _ hx))]

theorem lifeSavings_post_retirement (req : SimRequest) (ev : LifeEvent) :
    ∀ (ages : List ℕ) (s1 s2 : LifeState), s1.income = s2.income →
      (∀ a ∈ ages, req.retirement_age < a) → (∀ a ∈ ages, a ≠ ev.year) →
      lifeSavings req [ev] s1 ages = lifeSavings req [] s2 ages := by
  intro ages
  induction ages with
  | nil => intro s1 s2 _ _ _; rfl
  | cons a rest ih =>
    intro s1 s2 hinc hgt hne
    have hga : req.retirement_age < a := hgt a (List.mem_cons_self a rest)
    have h1 : ¬ a < req.retirement_age := by omega
    have h2 : a ≠ req.retirement_age := by omega
    have hup : updateIncome req s1 a = updateIncome req s2 a := by
      unfold updateIncome
      rw [if_neg h1, if_neg h2, if_neg h1, if_neg h2, hinc]
    have hsav : savingsAt req [ev] s1 a = savingsAt req [] s2 a := by
      unfold savingsAt
      rw [hup, eventCostAt_single_ne ev a (hne a (List.mem_cons_self a rest)),
        eventCostAt_nil]
    simp only [lifeSavings]
    rw [hsav]
    congr 1
    exact ih (stepLifeState req [ev] s1 a) (stepLifeState req [] s2 a) hup
      (fun x hx => hgt x (List.mem_cons_of_mem _ hx))
      (fun x hx => hne x (List.mem_cons_of_mem _ hx))

theorem lifeSavings_append (req : SimRequest) (events : List LifeEvent) :
    ∀ (l1 l2 : List ℕ) (s : LifeState),
      lifeSavings req events s (l1 ++ l2) =
        lifeSavings req events s l1 ++
          lifeSavings req events (lifeStateAfter req events s l1) l2 := by
  intro l1
  induction l1 with
  | nil => intro l2 s; rfl
  | cons a rest ih =>
    intro l2 s
    simp only [List.cons_append, lifeSavings, lifeStateAfter]
    congr 1
    exact ih l2 (stepLifeState req events s a)

theorem lifeSavings_length (req : SimRequest) (events : List LifeEvent) :
    ∀ (ages : List ℕ) (s : LifeState),
      (lifeSavings req events s ages).length = ages.length := by
  intro ages
  induction ages with
  | nil => intro s; rfl
  | cons a rest ih =>
    intro s
    simp only [lifeSavings, List.length_cons, ih]

theorem getD_shift (P T : List ℚ) (v c : ℚ) (i : ℕ) :
    (P ++ (v - c) :: T).getD i 0 =
      (P ++ v :: T).getD i 0 - (if i = P.length then c else 0) := by
  rcases lt_trichotomy i P.length with h | h | h
  · rw [List.getD_append _ _ _ _ h, List.getD_append _ _ _ _ h, if_neg (by omega), sub_zero]
  · subst h
    rw [List.getD_append_right _ _ _ _ (le_refl _), List.getD_append_right _ _ _ _ (le_refl _),
      Nat.sub_self, List.getD_cons_zero, List.getD_cons_zero, if_pos rfl]
  · have h1 : P.length ≤ i := le_of_lt h
    rw [List.getD_append_right _ _ _ _ h1, List.getD_append_right _ _ _ _ h1,
      if_neg (by omega), sub_zero,
      show i - P.length = (i - P.length - 1) + 1 from by omega,
      List.getD_cons_succ, List.getD_cons_succ]

end AgentsRoutes

/-- C2: when `retirement_age + 11 ≤ current_age` the simulated age range
`range(current_age, retirement_age + 11)` is empty, and the endpoint
evaluates `results[-1]` (the eagerly-evaluated default of `next(...)`) on
the empty results list, raising `IndexError` (modelled as `none`) instead
of returning a structured result with a feasibility indication. -/
theorem life_sim_crashes_on_empty_age_range (req : AgentsRoutes.SimRequest)
    (h : req.retirement_age + 11 ≤ req.current_age) :
    AgentsRoutes.run_life_simulation req = none := by
  have hages : AgentsRoutes.simAges req = [] := by
    unfold AgentsRoutes.simAges
    rw [show req.retirement_age + 11 - req.current_age = 0 from by omega]
    rfl
  simp [AgentsRoutes.run_life_simulation, hages, AgentsRoutes.lifeRecords]

/-- C2 (witness): current age 40, retirement age 29 — an infeasible input
(`retirement_age ≤ current_age`) on which the endpoint raises. -/
theorem life_sim_crashes_on_empty_age_range_witness :
    29 + 11 ≤ 40 ∧
      AgentsRoutes.run_life_simulation
        { current_age := 40, retirement_age := 29, current_income := 100000,
          current_savings := 10000, monthly_expenses := 5000, selected_events := [] } =
        none :=
  ⟨by norm_num,
    life_sim_crashes_on_empty_age_range
      { current_age := 40, retirement_age := 29, current_income := 100000,
        current_savings := 10000, monthly_expenses := 5000, selected_events := [] }
      (by norm_num)⟩

/-- C9 (amended): a single life event with trigger age within the
simulated range and at or after the retirement age is applied exactly
once — at the year whose age equals its trigger — and relative to an
otherwise-identical run with no events it changes exactly that year's
net-savings term by `-cost`, no other year's term being affected.  (For a
trigger age before retirement, the retirement-year income recalculation
`net_worth * 0.04 + 24000` propagates the event to every post-retirement
net-savings term, so the claim holds only from the retirement age on.) -/
theorem life_event_applied_once (req : AgentsRoutes.SimRequest)
    (ev : AgentsRoutes.LifeEvent)
    (h1 : req.current_age ≤ ev.year) (h2 : ev.year < req.retirement_age + 11)
    (h3 : req.retirement_age ≤ ev.year) :
    (AgentsRoutes.lifeSavings req [ev] ⟨req.current_savings, req.current_income⟩
        (AgentsRoutes.simAges req)).length = (AgentsRoutes.simAges req).length ∧
      (AgentsRoutes.lifeSavings req [] ⟨req.current_savings, req.current_income⟩
        (AgentsRoutes.simAges req)).length = (AgentsRoutes.simAges req).length ∧
      (AgentsRoutes.simAges req).getD (ev.year - req.current_age) 0 = ev.year ∧
      ∀ i < (AgentsRoutes.simAges req).length,
        (AgentsRoutes.lifeSavings req [ev] ⟨req.current_savings, req.current_income⟩
            (AgentsRoutes.simAges req)).getD i 0 =
          (AgentsRoutes.lifeSavings req [] ⟨req.current_savings, req.current_income⟩
              (AgentsRoutes.simAges req)).getD i 0 -
            (if i = ev.year - req.current_age then ev.cost else 0) := by
  have hsplit : AgentsRoutes.simAges req =
      List.range' req.current_age (ev.year - req.current_age) ++
        (ev.year :: List.range' (ev.year + 1)
          (req.retirement_age + 11 - req.current_age - (ev.year - req.current_age) - 1)) := by
    have h0 := List.range'_append req.current_age (ev.year - req.current_age)
      (req.retirement_age + 11 - req.current_age - (ev.year - req.current_age)) 1
    rw [one_mul,
      show req.current_age + (ev.year - req.current_age) = ev.year from by omega,
      show req.retirement_age + 11 - req.current_age - (ev.year - req.current_age) =
        (req.retirement_age + 11 - req.current_age - (ev.year - req.current_age) - 1) + 1
        from by omega,
      List.range'_succ,
      show (req.retirement_age + 11 - req.current_age - (ev.year - req.current_age) - 1) +
          1 + (ev.year - req.current_age) = req.retirement_age + 11 - req.current_age
        from by omega] at h0
    unfold AgentsRoutes.simAges
    exact h0.symm
  have hpre : ∀ a ∈ List.range' req.current_age (ev.year - req.current_age),
      a ≠ ev.year := by
    intro a ha
    rw [List.mem_range'] at ha
    obtain ⟨j, hj, haj⟩ := ha
    omega
  have hpost_gt : ∀ a ∈ List.range' (ev.year + 1)
      (req.retirement_age + 11 - req.current_age - (ev.year - req.current_age) - 1),
      req.retirement_age < a := by
    intro a ha
    rw [List.mem_range'] at ha
    obtain ⟨j, hj, haj⟩ := ha
    omega
  have hpost_ne : ∀ a ∈ List.range' (ev.year + 1)
      (req.retirement_age + 11 - req.current_age - (ev.year - req.current_age) - 1),
      a ≠ ev.year := by
    intro a ha
    rw [List.mem_range'] at ha
    obtain ⟨j, hj, haj⟩ := ha
    omega
  have hsA := AgentsRoutes.lifeStateAfter_no_event req ev
    (List.range' req.current_age (ev.year - req.current_age))
    ⟨req.current_savings, req.current_income⟩ hpre
  have hwithE : AgentsRoutes.lifeSavings req [ev]
      ⟨req.current_savings, req.current_income⟩ (AgentsRoutes.simAges req) =
      AgentsRoutes.lifeSavings req [] ⟨req.current_savings, req.current_income⟩
          (List.range' req.current_age (ev.year - req.current_age)) ++
        ((AgentsRoutes.savingsAt req []
            (AgentsRoutes.lifeStateAfter req [] ⟨req.current_savings, req.current_income⟩
              (List.range' req.current_age (ev.year - req.current_age))) ev.year - ev.cost) ::
          AgentsRoutes.lifeSavings req []
            (AgentsRoutes.stepLifeState req []
              (AgentsRoutes.lifeStateAfter req [] ⟨req.current_savings, req.current_income⟩
                (List.range' req.current_age (ev.year - req.current_age))) ev.year)
            (List.range' (ev.year + 1)
              (req.retirement_age + 11 - req.current_age - (ev.year - req.current_age) - 1))) := by
    rw [hsplit, AgentsRoutes.lifeSavings_append]
    rw [AgentsRoutes.lifeSavings_no_event req ev _ _ hpre, hsA]
    congr 1
    simp only [AgentsRoutes.lifeSavings]
    congr 1
    · unfold AgentsRoutes.savingsAt
      rw [AgentsRoutes.eventCostAt_single_eq, AgentsRoutes.eventCostAt_nil]
      ring
    · exact AgentsRoutes.lifeSavings_post_retirement req ev _ _ _ rfl hpost_gt hpost_ne
  have hnoE : AgentsRoutes.lifeSavings req []
      ⟨req.current_savings, req.current_income⟩ (AgentsRoutes.simAges req) =
      AgentsRoutes.lifeSavings req [] ⟨req.current_savings, req.current_income⟩
          (List.range' req.current_age (ev.year - req.current_age)) ++
        (AgentsRoutes.savingsAt req []
            (AgentsRoutes.lifeStateAfter req [] ⟨req.current_savings, req.current_income⟩
              (List.range' req.current_age (ev.year - req.current_age))) ev.year ::
          AgentsRoutes.lifeSavings req []
            (AgentsRoutes.stepLifeState req []
              (AgentsRoutes.lifeStateAfter req [] ⟨req.current_savings, req.current_income⟩
                (List.range' req.current_age (ev.year - req.current_age))) ev.year)
            (List.range' (ev.year + 1)
              (req.retirement_age + 11 - req.current_age - (ev.year - req.current_age) - 1))) := by
    rw [hsplit, AgentsRoutes.lifeSavings_append]
    rfl
  refine ⟨AgentsRoutes.lifeSavings_length req [ev] _ _,
    AgentsRoutes.lifeSavings_length req [] _ _, ?_, ?_⟩
  · rw [hsplit, List.getD_append_right _ _ _ _ (by rw [List.length_range'])]
    rw [List.length_range', Nat.sub_self, List.getD_cons_zero]
  · intro i hi
    rw [hwithE, hnoE, AgentsRoutes.getD_shift]
    rw [AgentsRoutes.lifeSavings_length, List.length_range']

/-- C9 (counterexample): with current age 30, retirement age 31, income
100000, savings 10000, monthly expenses 5000, a single event of cost 1000
triggered at age 30 (one year before retirement) also changes the age-31
net-savings term: the retirement-year income is recomputed as
`net_worth * 0.04 + 24000` and the event lowered the net worth, so more
than one year's net-savings term differs from the no-event run. -/
theorem life_event_claim_fails_pre_retirement :
    (AgentsRoutes.lifeSavings
        { current_age := 30, retirement_age := 31, current_income := 100000,
          current_savings := 10000, monthly_expenses := 5000, selected_events := [] }
        [⟨"House", 30, 1000⟩] ⟨10000, 100000⟩
        (AgentsRoutes.simAges
          { current_age := 30, retirement_age := 31, current_income := 100000,
            current_savings := 10000, monthly_expenses := 5000,
            selected_events := [] })).getD 1 0 ≠
      (AgentsRoutes.lifeSavings
        { current_age := 30, retirement_age := 31, current_income := 100000,
          current_savings := 10000, monthly_expenses := 5000, selected_events := [] }
        [] ⟨10000, 100000⟩
        (AgentsRoutes.simAges
          { current_age := 30, retirement_age := 31, current_income := 100000,
            current_savings := 10000, monthly_expenses := 5000,
            selected_events := [] })).getD 1 0 := by
  norm_num [AgentsRoutes.lifeSavings, AgentsRoutes.savingsAt, AgentsRoutes.stepLifeState,
    AgentsRoutes.updateIncome, AgentsRoutes.adjustedExpenses, AgentsRoutes.investmentReturn,
    AgentsRoutes.eventCostAt, AgentsRoutes.simAges, List.range', List.filter]

/-- C9 (witness): a cost-1000 event triggered exactly at the retirement
age 31 in a run from age 30. -/
theorem life_event_applied_once_witness :
    (AgentsRoutes.lifeSavings
        { current_age := 30, retirement_age := 31, current_income := 100000,
          current_savings := 10000, monthly_expenses := 5000, selected_events := [] }
        [⟨"Gift", 31, 1000⟩] ⟨10000, 100000⟩
        (AgentsRoutes.simAges
          { current_age := 30, retirement_age := 31, current_income := 100000,
            current_savings := 10000, monthly_expenses := 5000,
            selected_events := [] })).length =
      (AgentsRoutes.simAges
        { current_age := 30, retirement_age := 31, current_income := 100000,
          current_savings := 10000, monthly_expenses := 5000,
          selected_events := [] }).length ∧
    (AgentsRoutes.lifeSavings
        { current_age := 30, retirement_age := 31, current_income := 100000,
          current_savings := 10000, monthly_expenses := 5000, selected_events := [] }
        [] ⟨10000, 100000⟩
        (AgentsRoutes.simAges
          { current_age := 30, retirement_age := 31, current_income := 100000,
            current_savings := 10000, monthly_expenses := 5000,
            selected_events := [] })).length =
      (AgentsRoutes.simAges
        { current_age := 30, retirement_age := 31, current_income := 100000,
          current_savings := 10000, monthly_expenses := 5000,
          selected_events := [] }).length ∧
    (AgentsRoutes.simAges
        { current_age := 30, retirement_age := 31, current_income := 100000,
          current_savings := 10000, monthly_expenses := 5000,
          selected_events := [] }).getD (31 - 30) 0 = 31 ∧
    ∀ i < (AgentsRoutes.simAges
        { current_age := 30, retirement_age := 31, current_income := 100000,
          current_savings := 10000, monthly_expenses := 5000,
          selected_events := [] }).length,
      (AgentsRoutes.lifeSavings
          { current_age := 30, retirement_age := 31, current_income := 100000,
            current_savings := 10000, monthly_expenses := 5000, selected_events := [] }
          [⟨"Gift", 31, 1000⟩] ⟨10000, 100000⟩
          (AgentsRoutes.simAges
            { current_age := 30, retirement_age := 31, current_income := 100000,
              current_savings := 10000, monthly_expenses := 5000,
              selected_events := [] })).getD i 0 =
        (AgentsRoutes.lifeSavings
            { current_age := 30, retirement_age := 31, current_income := 100000,
              current_savings := 10000, monthly_expenses := 5000, selected_events := [] }
            [] ⟨10000, 100000⟩
            (AgentsRoutes.simAges
              { current_age := 30, retirement_age := 31, current_income := 100000,
                current_savings := 10000, monthly_expenses := 5000,
                selected_events := [] })).getD i 0 -
          (if i = 31 - 30 then 1000 else 0) :=
  life_event_applied_once
    { current_age := 30, retirement_age := 31, current_income := 100000,
      current_savings := 10000, monthly_expenses := 5000, selected_events := [] }
    ⟨"Gift", 31, 1000⟩ (by norm_num) (by norm_num) (by norm_num)

/-- C4 (counterexample): with two inflows of 100 and 50 sharing date 1 and
one bill due at date 2, the dict comprehension collapses both inflows into
a single entry holding only the last amount, so only 50 is ever credited
even though both inflows have date ≤ the due date: the claimed
exactly-once application of every due inflow fails. -/
theorem inflows_credited_once_fails_on_duplicate_dates :
    ¬ CashflowAgent.inflowsCreditedOnce [⟨"Rent", 30, 2⟩] [⟨"S1", 100, 1⟩, ⟨"S2", 50, 1⟩] := by
  intro h
  have h0 := h 0 (by
    norm_num [CashflowAgent.sortBills, List.insertionSort, List.orderedInsert])
  norm_num [CashflowAgent.sortBills, CashflowAgent.sortInflows, List.insertionSort,
    List.orderedInsert, CashflowAgent.buildDict, CashflowAgent.dictInsert,
    CashflowAgent.schedCredits, CashflowAgent.stepCredit, CashflowAgent.applyDict,
    CashflowAgent.applies, CashflowAgent.billsByDate, CashflowAgent.inflowsByDate,
    CashflowAgent.dateKey, List.filter] at h0

/-- C4 (amended): provided all inflow dates are distinct (two inflows
sharing a date are collapsed by the dict comprehension, only the last
amount surviving) and all dates are present, every inflow's amount is
added to the running balance at most once, and before each obligation is
classified every inflow whose date is ≤ that obligation's due date has
been applied exactly once: the cumulative credit up to bill `k` equals the
sum of exactly the amounts of the inflows dated ≤ that bill's due date. -/
theorem inflows_credited_once_of_distinct_dates (bills_due : List CashflowAgent.Bill)
    (income_schedule : List CashflowAgent.Inflow)
    (hnd : (income_schedule.map CashflowAgent.Inflow.date).Nodup)
    (hbd : ∀ b ∈ bills_due, b.due_date ≠ 0) :
    CashflowAgent.inflowsCreditedOnce bills_due income_schedule := by
  intro k hk
  have hperm : (CashflowAgent.sortInflows income_schedule).Perm income_schedule :=
    List.perm_insertionSort CashflowAgent.inflowsByDate income_schedule
  have hnd' : ((CashflowAgent.sortInflows income_schedule).map
      CashflowAgent.Inflow.date).Nodup :=
    ((hperm.map CashflowAgent.Inflow.date).nodup_iff).mpr hnd
  rw [CashflowAgent.buildDict_of_nodup _ hnd',
    ← CashflowAgent.zeroAfter_zero ((CashflowAgent.sortInflows income_schedule).map
      fun i => (i.date, i.amount))]
  have hbperm : (CashflowAgent.sortBills bills_due).Perm bills_due :=
    List.perm_insertionSort CashflowAgent.billsByDate bills_due
  have hbd' : ∀ b ∈ CashflowAgent.sortBills bills_due, b.due_date ≠ 0 :=
    fun b hb => hbd b (hbperm.mem_iff.mp hb)
  have hsorted : List.Pairwise
      (fun a b : CashflowAgent.Bill => a.due_date ≤ b.due_date)
      (CashflowAgent.sortBills bills_due) := by
    have hs : List.Sorted CashflowAgent.billsByDate (CashflowAgent.sortBills bills_due) :=
      List.sorted_insertionSort CashflowAgent.billsByDate bills_due
    refine hs.imp_of_mem ?_
    intro a b ha hb hab
    have ha0 := hbd' a ha
    have hb0 := hbd' b hb
    unfold CashflowAgent.billsByDate CashflowAgent.dateKey at hab
    rw [if_neg ha0, if_neg hb0] at hab
    exact_mod_cast hab
  rw [CashflowAgent.schedCredits_spec _ (CashflowAgent.sortBills bills_due) 0 hsorted hbd'
    (fun b _ => Nat.zero_le _) k hk]
  have hfc : ∀ x ∈ ((CashflowAgent.sortInflows income_schedule).map
      fun i => (i.date, i.amount)),
      (decide (x.1 ≠ 0 ∧ ¬ x.1 ≤ 0 ∧ x.1 ≤
        ((CashflowAgent.sortBills bills_due).get ⟨k, hk⟩).due_date) =
      decide (x.1 ≠ 0 ∧ x.1 ≤
        ((CashflowAgent.sortBills bills_due).get ⟨k, hk⟩).due_date)) :=
    fun x _ => decide_eq_decide.mpr (by omega)
  rw [List.filter_congr hfc,
    CashflowAgent.sum_snd_filter_map (CashflowAgent.sortInflows income_schedule)
      (fun d => d ≠ 0 ∧ d ≤ ((CashflowAgent.sortBills bills_due).get ⟨k, hk⟩).due_date)]
  exact ((hperm.filter _).map CashflowAgent.Inflow.amount).sum_eq

/-- C4 (witness): one inflow of 100 at date 1 against one bill due at
date 2, dates distinct and present. -/
theorem inflows_credited_once_of_distinct_dates_witness :
    (([⟨"Sal", 100, 1⟩] : List CashflowAgent.Inflow).map
        CashflowAgent.Inflow.date).Nodup ∧
      (∀ b ∈ ([⟨"Rent", 30, 2⟩] : List CashflowAgent.Bill), b.due_date ≠ 0) ∧
      CashflowAgent.inflowsCreditedOnce [⟨"Rent", 30, 2⟩] [⟨"Sal", 100, 1⟩] :=
  ⟨by simp, by simp, inflows_credited_once_of_distinct_dates _ _ (by simp) (by simp)⟩
